import Mathlib

/-!
Shallow embedding of the voting-ledger core of the repository.

The repository ships two standalone server implementations of the same
ledger logic:

* `src/backend/server.js` — embedded below in namespace `Server`
  (entities `voters`, `elections`, `candidates`, `votes`, `blockchain`,
  `audit`, `stats`, `relayerLog`; operations `registerVoter`,
  `createElection`, `addCandidate`, `recordVote` with its helpers
  `updateCandidateVotes` / `updateElectionTotalVotes`, the loggers
  `logBlockchain` / `logAudit`, and `getActiveElections`).
* `src/backend/backend.js` — embedded in namespace `Backend`
  (entities `voters`, `elections`, `candidates`, `votes`, `sysActivity`;
  the `/api` action handlers `registerVoter`, `createElection`,
  `addCandidate`, `castVote`, `getActiveElections`).

Modelling conventions, stated once here:

* JS strings are Lean `String`s.  `String.prototype.toLowerCase` is
  modelled on the ASCII range (the only range wallet addresses and the
  other compared strings use); `String.prototype.trim` drops the usual
  ASCII whitespace from both ends.
* Entity identifiers travel through the JS code as `parseInt(x)` /
  `Number(x)` of a request field and are compared either numerically
  (`server.js`) or via `String(a) === String(b)` on canonical numerals
  (`backend.js`).  They are modelled as `Nat`, with `0` standing for an
  absent / unparseable (falsy) field.  Vote counts and list lengths are
  `Nat`.
* `startDate` / `endDate` fields are modelled as `Option Int`: `none`
  for an absent (falsy) date, `some t` for a date string denoting epoch
  instant `t` (`new Date(x).getTime()` / `Date.now()`).
* Timestamps produced by `new Date().toISOString()` are an explicit
  `now : String` argument of each operation.  `uuidv4()` hashes and the
  JSON `details` payloads of log entries are abstracted as strings whose
  contents no operation ever reads back.
* Persistence (`saveDatabase` / `writeDB`) and the Google-Sheets /
  socket.io side channels perform no state change on the in-memory
  database and are omitted.
* The float expression `((count / totalVotes) * 100).toFixed(2)` is
  modelled as a deterministic rendering of the rational
  `count * 100 / totalVotes` with two decimals; no claim inspects the
  rendered digits, only that the value is a function of the two counts.
-/

set_option maxHeartbeats 1000000
set_option linter.unnecessarySeqFocus false

namespace Voting

/-- ASCII action of `String.prototype.toLowerCase` on one character:
codepoints 65..90 (`A`..`Z`) shift by 32, everything else is fixed. -/
def jsLowerChar (c : Char) : Char :=
  if 65 ≤ c.toNat ∧ c.toNat ≤ 90 then Char.ofNat (c.toNat + 32) else c

/-- Model of `String.prototype.toLowerCase`. -/
def jsToLower (s : String) : String :=
  ⟨s.data.map jsLowerChar⟩

/-- Whitespace recognized by the model of `String.prototype.trim`. -/
def jsIsSpace (c : Char) : Bool :=
  c.toNat = 32 || c.toNat = 9 || c.toNat = 10 || c.toNat = 13

/-- Drop leading and trailing whitespace from a character list. -/
def trimChars (l : List Char) : List Char :=
  ((l.dropWhile jsIsSpace).reverse.dropWhile jsIsSpace).reverse

/-- Model of `String.prototype.trim`. -/
def jsTrim (s : String) : String :=
  ⟨trimChars s.data⟩

/-- Wallet normalization used by `server.js`:
`(data.walletAddress || '').toLowerCase().trim()`. -/
def normWallet (s : String) : String :=
  jsTrim (jsToLower s)

/-- Hexadecimal digit, as in the character class `[a-fA-F0-9]`. -/
def isHexDigit (c : Char) : Bool :=
  (48 ≤ c.toNat && c.toNat ≤ 57) || (97 ≤ c.toNat && c.toNat ≤ 102) ||
    (65 ≤ c.toNat && c.toNat ≤ 70)

/-- Model of the anchored wallet format check
`wallet.match(&#47;^0x[a-fA-F0-9]&#123;40&#125;$&#47;)` in `server.js`. -/
def isValidWallet (s : String) : Bool :=
  match s.data with
  | '0' :: 'x' :: rest => rest.length == 40 && rest.all isHexDigit
  | _ => false

/-- Two-decimal rendering of a value given in hundredths. -/
def toFixed2 (centi : Nat) : String :=
  toString (centi / 100) ++ "." ++ (if centi % 100 < 10 then "0" else "") ++
    toString (centi % 100)

/-- Number of requests in a trace that satisfy `pred` and succeed, where
`step` yields the success flag and successor state of each request. -/
def countSucc {S R : Type} (step : R → S → Bool × S) (pred : R → Bool) :
    List R → S → Nat
  | [], _ => 0
  | r :: rs, s =>
    (if pred r && (step r s).1 then 1 else 0) + countSucc step pred rs (step r s).2

namespace Server

/-- Row of `DATABASE.voters` in `server.js`. -/
structure SVoter where
  walletAddress : String
  name : String
  idNumber : String
  email : String
  registeredAt : String
  status : String
deriving DecidableEq, Repr

/-- Row of `DATABASE.elections` in `server.js`. -/
structure SElection where
  electionId : Nat
  title : String
  description : String
  startDate : Option Int
  endDate : Option Int
  status : String
  totalVotes : Nat
  createdAt : String
  contractAddress : String
deriving DecidableEq, Repr

/-- Row of `DATABASE.candidates` in `server.js`. -/
structure SCandidate where
  electionId : Nat
  candidateId : Nat
  name : String
  party : String
  votes : Nat
  percentage : String
  addedAt : String
deriving DecidableEq, Repr

/-- Row of `DATABASE.votes` in `server.js`. -/
structure SVote where
  txHash : String
  walletAddress : String
  electionId : Nat
  candidateId : Nat
  timestamp : String
  blockNumber : Nat
  gasUsed : Nat
  status : String
deriving DecidableEq, Repr

/-- Row of `DATABASE.blockchain` in `server.js` (the `details` object and
the random `uuidv4()` hash are abstracted as strings). -/
structure SBlock where
  timestamp : String
  action : String
  details : String
  hash : String
  blockNumber : Nat
deriving DecidableEq, Repr

/-- Row of `DATABASE.audit` in `server.js`, as pushed by `logAudit`:
timestamp, action, user, details, status and error message.  Note the
row carries no sequence-number field. -/
structure SAudit where
  timestamp : String
  action : String
  user : String
  details : String
  status : String
  error : String
deriving DecidableEq, Repr

/-- The `DATABASE.stats` object recomputed by `updateStats`. -/
structure SStats where
  totalVoters : Nat
  totalElections : Nat
  totalVotes : Nat
  totalCandidates : Nat
  lastUpdate : String
deriving DecidableEq, Repr

/-- Row of `DATABASE.relayerLog` in `server.js`. -/
structure SRelayerEntry where
  timestamp : String
  fromAddr : String
  action : String
  status : String
  txHash : String
  gasUsed : Nat
deriving DecidableEq, Repr

/-- The in-memory `DATABASE` object of `server.js`. -/
structure SDB where
  voters : List SVoter
  elections : List SElection
  candidates : List SCandidate
  votes : List SVote
  blockchain : List SBlock
  audit : List SAudit
  stats : SStats
  relayerLog : List SRelayerEntry
deriving DecidableEq, Repr

/-- The environment-derived `CONFIG` of `server.js`: the admin allow-list
(already lower-cased and trimmed by the startup code) and the voting
contract address. -/
structure SConfig where
  adminAddresses : List String
  votingContractAddress : String
deriving DecidableEq, Repr

/-- The `&#123;success, error?, message?, ...&#125;` result object of the
`server.js` handlers; `retId` carries the returned `electionId` /
`candidateId` payload where one exists. -/
structure SResult where
  success : Bool
  error : String := ""
  message : String := ""
  retId : Nat := 0
deriving DecidableEq, Repr

/-- Model of `logBlockchain(action, details)`: appends a block whose
`blockNumber` is the current length of the chain. -/
def logBlockchain (now action details : String) (s : SDB) : SDB :=
  { s with blockchain :=
      s.blockchain ++ [⟨now, action, details, "", s.blockchain.length⟩] }

/-- Model of `logAudit(action, user, details, status, error)`: appends a
plain audit row; it always succeeds and changes nothing else. -/
def logAudit (now action user details status error : String) (s : SDB) : SDB :=
  { s with audit := s.audit ++ [⟨now, action, user, details, status, error⟩] }

/-- Model of `updateStats()`: recomputes the `stats` object from the
current collection lengths. -/
def updateStats (now : String) (s : SDB) : SDB :=
  { s with stats :=
      ⟨s.voters.length, s.elections.length, s.votes.length, s.candidates.length, now⟩ }

/-- Shared failure path of the mutating handlers: every `catch` block
returns `&#123;success: false, error&#125;` after a `logAudit(action, user, data,
'error', err.message)`. -/
def sFail (now action user err : String) (s : SDB) : SResult × SDB :=
  (⟨false, err, "", 0⟩, logAudit now action user "request" "error" err s)

/-- The audit `user` of the failure paths: `data.walletAddress ||
'unknown'` (resp. `data.adminAddress || 'unknown'`). -/
def sUser (raw : String) : String :=
  if raw = "" then "unknown" else raw

/-- Request payload of the `registerVoter` action (the `data.wallet` /
`data.dni` field aliases are collapsed into the canonical fields). -/
structure RegisterData where
  walletAddress : String
  name : String
  idNumber : String
  email : String
deriving DecidableEq, Repr

/-- Model of `registerVoter(data)` in `server.js`. -/
def registerVoter (d : RegisterData) (now : String) (s : SDB) : SResult × SDB :=
  if normWallet d.walletAddress = "" ∨ jsTrim d.name = "" ∨ jsTrim d.idNumber = "" then
    sFail now "registerVoter" (sUser d.walletAddress)
      "Datos incompletos: wallet, nombre y DNI son obligatorios" s
  else if ¬ isValidWallet (normWallet d.walletAddress) then
    sFail now "registerVoter" (sUser d.walletAddress) "Dirección de wallet inválida" s
  else if s.voters.any (fun v => jsToLower v.walletAddress == normWallet d.walletAddress) then
    sFail now "registerVoter" (sUser d.walletAddress) "Votante ya registrado con esta wallet" s
  else
    let wallet := normWallet d.walletAddress
    let name := jsTrim d.name
    let voter : SVoter := ⟨wallet, name, jsTrim d.idNumber, jsTrim d.email, now, "Activo"⟩
    let s1 := { s with voters := s.voters ++ [voter] }
    let s2 := logBlockchain now "registerVoter" (wallet ++ " " ++ name) s1
    let s3 := logAudit now "registerVoter" wallet (name ++ " " ++ jsTrim d.idNumber) "success" "" s2
    (⟨true, "", "✅ Votante registrado correctamente", 0⟩, updateStats now s3)

/-- Request payload of the `createElection` action. -/
structure ElectionData where
  adminAddress : String
  title : String
  description : String
  startDate : Option Int
  endDate : Option Int
deriving DecidableEq, Repr

/-- Model of `createElection(data)` in `server.js`. -/
def createElection (cfg : SConfig) (d : ElectionData) (now : String) (s : SDB) :
    SResult × SDB :=
  if normWallet d.adminAddress = "" ∨ jsTrim d.title = "" then
    sFail now "createElection" (sUser d.adminAddress)
      "Dirección de admin y título son obligatorios" s
  else if normWallet d.adminAddress ∉ cfg.adminAddresses then
    sFail now "createElection" (sUser d.adminAddress) "No autorizado: dirección no es admin" s
  else
    let admin := normWallet d.adminAddress
    let title := jsTrim d.title
    let electionId := s.elections.length + 1
    let e : SElection :=
      ⟨electionId, title, jsTrim d.description, d.startDate, d.endDate, "Activa", 0, now,
        cfg.votingContractAddress⟩
    let s1 := { s with elections := s.elections ++ [e] }
    let s2 := logBlockchain now "createElection" (admin ++ " " ++ title) s1
    let s3 := logAudit now "createElection" admin title "success" "" s2
    (⟨true, "", "✅ Elección creada", electionId⟩, updateStats now s3)

/-- Request payload of the `addCandidate` action (`data.election` /
`data.proposal` aliases collapsed; `electionId` is the `parseInt` of the
request field, `0` when falsy). -/
structure CandidateData where
  electionId : Nat
  name : String
  party : String
deriving DecidableEq, Repr

/-- Model of `addCandidate(data)` in `server.js`: per-election id
assignment — one plus the count of candidates already filtered to the
same election.  Does not call `updateStats`. -/
def addCandidate (d : CandidateData) (now : String) (s : SDB) : SResult × SDB :=
  if d.electionId = 0 ∨ jsTrim d.name = "" then
    sFail now "addCandidate" "system" "Election ID y nombre son obligatorios" s
  else if ¬ s.elections.any (fun e => e.electionId == d.electionId) then
    sFail now "addCandidate" "system" "Elección no encontrada" s
  else
    let name := jsTrim d.name
    let candidateId := (s.candidates.filter (fun c => c.electionId == d.electionId)).length + 1
    let c : SCandidate := ⟨d.electionId, candidateId, name, jsTrim d.party, 0, "0%", now⟩
    let s1 := { s with candidates := s.candidates ++ [c] }
    let s2 := logBlockchain now "addCandidate" name s1
    let s3 := logAudit now "addCandidate" "system" name "success" "" s2
    (⟨true, "", "✅ Candidato agregado", candidateId⟩, s3)

/-- Count of votes recorded for one `(electionId, candidateId)` pair. -/
def countVotes (votes : List SVote) (eid cid : Nat) : Nat :=
  (votes.filter (fun v => v.electionId == eid && v.candidateId == cid)).length

/-- Count of votes recorded for one election. -/
def countElectionVotes (votes : List SVote) (eid : Nat) : Nat :=
  (votes.filter (fun v => v.electionId == eid)).length

/-- The percentage string `server.js` stores on a candidate: two-decimal
rendering of `count / total * 100` when `total > 0`, else `'0'`; a `%`
sign is appended in both cases. -/
def pctString (count total : Nat) : String :=
  if 0 < total then toFixed2 (count * 10000 / total) ++ "%" else "0%"

/-- Model of `updateCandidateVotes(electionId)`: recomputes, for every
candidate of the election, the `votes` count and `percentage` from the
vote ledger alone.  (The JS sums per-candidate buckets of the filtered
votes; that sum is the filtered count, used here directly.) -/
def updateCandidateVotes (eid : Nat) (s : SDB) : SDB :=
  let total := countElectionVotes s.votes eid
  { s with candidates := s.candidates.map (fun c =>
      if c.electionId == eid then
        { c with votes := countVotes s.votes eid c.candidateId,
                 percentage := pctString (countVotes s.votes eid c.candidateId) total }
      else c) }

/-- Update of the first list element with the given election id, as the
JS `DATABASE.elections.find(...)` mutation touches only the first
match. -/
def setFirstElection (eid : Nat) (f : SElection → SElection) :
    List SElection → List SElection
  | [] => []
  | e :: es =>
    if e.electionId == eid then f e :: es else e :: setFirstElection eid f es

/-- Model of `updateElectionTotalVotes(electionId)`: stores the ledger
count of the election's votes on the (first) matching election row. -/
def updateElectionTotalVotes (eid : Nat) (s : SDB) : SDB :=
  let total := countElectionVotes s.votes eid
  { s with elections := setFirstElection eid (fun e => { e with totalVotes := total }) s.elections }

/-- The duplicate-vote check of `recordVote`: some stored vote matches
the normalized wallet (stored wallets are compared lower-cased) and the
election id. -/
def hasVoted (s : SDB) (w : String) (eid : Nat) : Bool :=
  s.votes.any (fun v => jsToLower v.walletAddress == w && v.electionId == eid)

/-- Request payload of the `recordVote` / `castVote` action (field
aliases `data.voter` / `data.from` / `data.transactionHash` collapsed;
ids are the `parseInt` results, `0` when falsy). -/
structure VoteData where
  txHash : String
  walletAddress : String
  electionId : Nat
  candidateId : Nat
  blockNumber : Nat
  gasUsed : Nat
deriving DecidableEq, Repr

/-- Model of `recordVote(data)` in `server.js`: presence check, then the
already-voted check, then the election-scoped candidate check; on
success appends the vote and recomputes both tally caches. -/
def recordVote (d : VoteData) (now : String) (s : SDB) : SResult × SDB :=
  if normWallet d.walletAddress = "" ∨ d.electionId = 0 ∨ d.candidateId = 0 then
    sFail now "recordVote" (sUser d.walletAddress) "Datos incompletos para registrar voto" s
  else if hasVoted s (normWallet d.walletAddress) d.electionId then
    sFail now "recordVote" (sUser d.walletAddress)
      "El votante ya emitió su voto en esta elección" s
  else if ¬ s.candidates.any (fun c =>
      c.electionId == d.electionId && c.candidateId == d.candidateId) then
    sFail now "recordVote" (sUser d.walletAddress) "Candidato no encontrado" s
  else
    let wallet := normWallet d.walletAddress
    let vote : SVote :=
      ⟨d.txHash, wallet, d.electionId, d.candidateId, now, d.blockNumber, d.gasUsed,
        "Confirmado"⟩
    let s1 := { s with votes := s.votes ++ [vote] }
    let s2 := updateCandidateVotes d.electionId s1
    let s3 := updateElectionTotalVotes d.electionId s2
    let s4 := logBlockchain now "castVote" wallet s3
    let s5 := logAudit now "castVote" wallet "vote" "success" "" s4
    (⟨true, "", "🗳️ Voto registrado correctamente", 0⟩, updateStats now s5)

/-- Projection returned per election by `getActiveElections`. -/
structure SActiveElection where
  ElectionID : Nat
  Title : String
  Description : String
  StartDate : Option Int
  EndDate : Option Int
  Status : String
  TotalVotes : Nat
  ContractAddress : String
deriving DecidableEq, Repr

/-- Model of `getActiveElections()` in `server.js`: filters on
`status === 'Activa'` only — the stored dates are carried through but
never consulted. -/
def getActiveElections (s : SDB) : List SActiveElection :=
  (s.elections.filter (fun e => e.status == "Activa")).map (fun e =>
    ⟨e.electionId, e.title, e.description, e.startDate, e.endDate, e.status,
      e.totalVotes, e.contractAddress⟩)

/-- Model of `logRelayer(data)`: appends to the relayer log only; it is
not one of the audited mutating actions. -/
def logRelayer (now fromAddr action status txHash : String) (gasUsed : Nat)
    (s : SDB) : SDB :=
  { s with relayerLog := s.relayerLog ++ [⟨now, fromAddr, action, status, txHash, gasUsed⟩] }

/-- State produced by `initializeSystem()` on an empty data directory:
the genesis block (blockNumber 0) plus freshly computed stats. -/
def initDB (now : String) : SDB :=
  { voters := [], elections := [], candidates := [], votes := [],
    blockchain := [⟨now, "GENESIS", "Sistema inicializado", "", 0⟩],
    audit := [], stats := ⟨0, 0, 0, 0, now⟩, relayerLog := [] }

/-- One mutating request of the `handleAction` dispatch surface (the
remaining actions are reads, plus `logRelayer`, which only appends to
the relayer log and touches none of the ledger entities). -/
inductive SReq where
  | registerVoter (d : RegisterData) (now : String)
  | createElection (d : ElectionData) (now : String)
  | addCandidate (d : CandidateData) (now : String)
  | castVote (d : VoteData) (now : String)
deriving DecidableEq, Repr

/-- Dispatch of one mutating request, as `handleAction` routes it
(`castVote` is an alias of `recordVote` there). -/
def sstep (cfg : SConfig) (r : SReq) (s : SDB) : SResult × SDB :=
  match r with
  | .registerVoter d now => registerVoter d now s
  | .createElection d now => createElection cfg d now s
  | .addCandidate d now => addCandidate d now s
  | .castVote d now => recordVote d now s

/-- Run a request trace from a state. -/
def srun (cfg : SConfig) (rs : List SReq) (s : SDB) : SDB :=
  rs.foldl (fun s r => (sstep cfg r s).2) s

/-- States reachable from a fresh system by some trace of mutating
requests. -/
def SReachable (cfg : SConfig) (s : SDB) : Prop :=
  ∃ t rs, srun cfg rs (initDB t) = s

/-- Success flag and successor state of one dispatched request. -/
def sflag (cfg : SConfig) (r : SReq) (s : SDB) : Bool × SDB :=
  ((sstep cfg r s).1.success, (sstep cfg r s).2)

/-- Whether a request is a cast (`recordVote` / `castVote`) for the
wallet-election pair `(w, e)`, `w` being the normalized wallet. -/
def isCastFor (w : String) (e : Nat) : SReq → Bool
  | .castVote d _ => normWallet d.walletAddress == w && d.electionId == e
  | _ => false

/-- Number of successful casts for the pair `(w, e)` along a trace. -/
def castSuccessCount (cfg : SConfig) (w : String) (e : Nat) (rs : List SReq)
    (s : SDB) : Nat :=
  countSucc (sflag cfg) (isCastFor w e) rs s

/-- The blockchain log either is untouched or got exactly one block
numbered with its previous length. -/
def ChainExtended (b b' : List SBlock) : Prop :=
  b' = b ∨ ∃ now a det, b' = b ++ [⟨now, a, det, "", b.length⟩]

/-- The tally recomputation `recordVote` triggers for an election:
`updateCandidateVotes` followed by `updateElectionTotalVotes`. -/
def tallyRecompute (eid : Nat) (s : SDB) : SDB :=
  updateElectionTotalVotes eid (updateCandidateVotes eid s)

/-- Sum of the cached `votes` fields over the candidates of one
election. -/
def sumCandidateVotes (s : SDB) (eid : Nat) : Nat :=
  ((s.candidates.filter (fun c => c.electionId == eid)).map (·.votes)).sum

/-- Inductive invariant of the `server.js` database: election ids are
`1..n` in creation order; per-election candidate ids are `1..k` in
insertion order; candidates reference existing elections and votes
reference existing election-scoped candidates; the cached per-candidate
and per-election tallies equal the ledger counts; every election's
`status` is `'Activa'` (nothing ever rewrites it); blocks are numbered
`0..m-1`. -/
def SInv (s : SDB) : Prop :=
  (s.elections.map (·.electionId) = List.range' 1 s.elections.length) ∧
  (∀ eid, (s.candidates.filter (fun c => c.electionId == eid)).map (·.candidateId)
      = List.range' 1 ((s.candidates.filter (fun c => c.electionId == eid)).length)) ∧
  (∀ c ∈ s.candidates, ∃ e ∈ s.elections, e.electionId = c.electionId) ∧
  (∀ v ∈ s.votes, ∃ c ∈ s.candidates,
      c.electionId = v.electionId ∧ c.candidateId = v.candidateId) ∧
  (∀ c ∈ s.candidates, c.votes = countVotes s.votes c.electionId c.candidateId) ∧
  (∀ e ∈ s.elections, e.totalVotes = countElectionVotes s.votes e.electionId) ∧
  (∀ e ∈ s.elections, e.status = "Activa") ∧
  (s.blockchain.map (·.blockNumber) = List.range s.blockchain.length)

end Server

namespace Backend

/-- Row of `db.voters` in `backend.js` (capitalized field naming; the
wallet is stored exactly as received, not normalized). -/
structure BVoter where
  VoterID : Nat
  Wallet : String
  Name : String
  IDNumber : String
  Email : String
  RegisteredAt : String
  IP : String
deriving DecidableEq, Repr

/-- Row of `db.elections` in `backend.js`. -/
structure BElection where
  ElectionID : Nat
  Title : String
  Description : String
  StartDate : Option Int
  EndDate : Option Int
  CreatedAt : String
  TotalVotes : Nat
deriving DecidableEq, Repr

/-- Row of `db.candidates` in `backend.js`. -/
structure BCandidate where
  CandidateID : Nat
  ElectionID : Nat
  Name : String
  Party : String
  Votes : Nat
  CreatedAt : String
deriving DecidableEq, Repr

/-- Row of `db.votes` in `backend.js`. -/
structure BVote where
  VoteID : Nat
  Wallet : String
  ElectionID : Nat
  CandidateID : Nat
  Timestamp : String
deriving DecidableEq, Repr

/-- Row of `db.sysActivity` in `backend.js` (the JSON `data` payload is
abstracted as a string). -/
structure BActivity where
  time : String
  type : String
  data : String
deriving DecidableEq, Repr

/-- The JSON database of `backend.js` (`DEFAULT_DB` shape). -/
structure BDB where
  voters : List BVoter
  elections : List BElection
  candidates : List BCandidate
  votes : List BVote
  sysActivity : List BActivity
deriving DecidableEq, Repr

/-- The `DEFAULT_DB` empty database. -/
def initBDB : BDB :=
  { voters := [], elections := [], candidates := [], votes := [], sysActivity := [] }

/-- Model of `nextId(collection, keyName)`: 1 on an empty collection,
otherwise one plus the maximum existing key. -/
def nextId (keys : List Nat) : Nat :=
  match keys with
  | [] => 1
  | _ => keys.foldl max 0 + 1

/-- Result object of the `backend.js` `/api` handlers; `retId` carries
the id of a freshly created row where the response includes one. -/
structure BResult where
  success : Bool
  error : String := ""
  retId : Nat := 0
deriving DecidableEq, Repr

/-- Request payload of the `registerVoter` action of `backend.js`. -/
structure BRegisterData where
  walletAddress : String
  name : String
  idNumber : String
  email : String
  ipAddress : String
deriving DecidableEq, Repr

/-- Model of the `registerVoter` handler of `backend.js`: raw-field
presence check, case-insensitive duplicate check (no trim, no format
check), id from `nextId`, wallet stored as received. -/
def registerVoter (d : BRegisterData) (now : String) (s : BDB) : BResult × BDB :=
  if d.walletAddress = "" ∨ d.name = "" ∨ d.idNumber = "" then
    (⟨false, "Campos incompletos", 0⟩, s)
  else if s.voters.any (fun v => jsToLower v.Wallet == jsToLower d.walletAddress) then
    (⟨false, "Wallet ya registrada", 0⟩, s)
  else
    let id := nextId (s.voters.map (·.VoterID))
    let voter : BVoter := ⟨id, d.walletAddress, d.name, d.idNumber, d.email, now, d.ipAddress⟩
    (⟨true, "", id⟩, { s with voters := s.voters ++ [voter] })

/-- Request payload of the `createElection` action of `backend.js`. -/
structure BElectionData where
  title : String
  description : String
  startDate : Option Int
  endDate : Option Int
deriving DecidableEq, Repr

/-- Model of the `createElection` handler of `backend.js`: no admin
check and no required field; a falsy title defaults to a generated
one. -/
def createElection (d : BElectionData) (now : String) (s : BDB) : BResult × BDB :=
  let id := nextId (s.elections.map (·.ElectionID))
  let title := if d.title = "" then "Elección " ++ toString id else d.title
  let e : BElection := ⟨id, title, d.description, d.startDate, d.endDate, now, 0⟩
  (⟨true, "", id⟩, { s with elections := s.elections ++ [e] })

/-- Request payload of the `addCandidate` action of `backend.js`. -/
structure BCandidateData where
  electionId : Nat
  name : String
  party : String
deriving DecidableEq, Repr

/-- Model of the `addCandidate` handler of `backend.js`: presence check
only — the election is not resolved — and the `CandidateID` comes from
`nextId` over ALL candidates, i.e. it is globally sequential. -/
def addCandidate (d : BCandidateData) (now : String) (s : BDB) : BResult × BDB :=
  if d.electionId = 0 ∨ d.name = "" then
    (⟨false, "electionId y name requeridos", 0⟩, s)
  else
    let id := nextId (s.candidates.map (·.CandidateID))
    let c : BCandidate := ⟨id, d.electionId, d.name, d.party, 0, now⟩
    (⟨true, "", id⟩, { s with candidates := s.candidates ++ [c] })

/-- Request payload of the `castVote` action of `backend.js`. -/
structure BVoteData where
  walletAddress : String
  electionId : Nat
  candidateId : Nat
deriving DecidableEq, Repr

/-- The duplicate-vote check of the `castVote` handler: stored wallets
are compared lower-cased against the lower-cased request wallet, ids
numerically (`String(a) === String(b)` on canonical numerals). -/
def hasVotedB (s : BDB) (w : String) (eid : Nat) : Bool :=
  s.votes.any (fun v => jsToLower v.Wallet == w && v.ElectionID == eid)

/-- Update of the first candidate with the given `CandidateID` — the JS
`db.candidates.find(...)` mutation is not scoped to the election. -/
def setFirstCandidateB (cid : Nat) (f : BCandidate → BCandidate) :
    List BCandidate → List BCandidate
  | [] => []
  | c :: cs =>
    if c.CandidateID == cid then f c :: cs else c :: setFirstCandidateB cid f cs

/-- Update of the first election with the given `ElectionID`. -/
def setFirstElectionB (eid : Nat) (f : BElection → BElection) :
    List BElection → List BElection
  | [] => []
  | e :: es =>
    if e.ElectionID == eid then f e :: es else e :: setFirstElectionB eid f es

/-- Model of the `castVote` handler of `backend.js`: presence check and
already-voted check only — no election or candidate existence check; on
success the vote is appended and the matching candidate / election
counters (if any) are incremented in place, then a `sysActivity` row is
appended. -/
def castVote (d : BVoteData) (now : String) (s : BDB) : BResult × BDB :=
  if d.walletAddress = "" ∨ d.electionId = 0 ∨ d.candidateId = 0 then
    (⟨false, "Faltan datos", 0⟩, s)
  else if hasVotedB s (jsToLower d.walletAddress) d.electionId then
    (⟨false, "Ya votó", 0⟩, s)
  else
    let id := nextId (s.votes.map (·.VoteID))
    let vote : BVote := ⟨id, d.walletAddress, d.electionId, d.candidateId, now⟩
    let s1 := { s with votes := s.votes ++ [vote] }
    let cands := setFirstCandidateB d.candidateId (fun c => { c with Votes := c.Votes + 1 }) s1.candidates
    let s2 := { s1 with candidates := cands }
    let elects := setFirstElectionB d.electionId (fun e => { e with TotalVotes := e.TotalVotes + 1 }) s2.elections
    let s3 := { s2 with elections := elects }
    let act : BActivity := ⟨now, "vote", toString d.electionId ++ " " ++ toString d.candidateId⟩
    (⟨true, "", id⟩, { s3 with sysActivity := s3.sysActivity ++ [act] })

/-- Model of the `getActiveElections` handler of `backend.js`: keeps an
election when `start <= now && now <= end`, where an absent `StartDate`
acts as negative infinity and an absent `EndDate` as positive
infinity. -/
def getActiveElections (s : BDB) (nowMs : Int) : List BElection :=
  s.elections.filter (fun e =>
    (match e.StartDate with
     | none => true
     | some t => decide (t ≤ nowMs)) &&
    (match e.EndDate with
     | none => true
     | some t => decide (nowMs ≤ t)))

/-- One mutating request of the `backend.js` `/api` action dispatch. -/
inductive BReq where
  | registerVoter (d : BRegisterData) (now : String)
  | createElection (d : BElectionData) (now : String)
  | addCandidate (d : BCandidateData) (now : String)
  | castVote (d : BVoteData) (now : String)
deriving DecidableEq, Repr

/-- Dispatch of one mutating `backend.js` request. -/
def bstep (r : BReq) (s : BDB) : BResult × BDB :=
  match r with
  | .registerVoter d now => registerVoter d now s
  | .createElection d now => createElection d now s
  | .addCandidate d now => addCandidate d now s
  | .castVote d now => castVote d now s

/-- Run a request trace from a state. -/
def brun (rs : List BReq) (s : BDB) : BDB :=
  rs.foldl (fun s r => (bstep r s).2) s

/-- States reachable from the `DEFAULT_DB` empty database. -/
def BReachable (s : BDB) : Prop :=
  ∃ rs, brun rs initBDB = s

/-- Whether a `backend.js` request is a cast for the pair `(w, e)`, `w`
being the lower-cased wallet. -/
def isCastForB (w : String) (e : Nat) : BReq → Bool
  | .castVote d _ => jsToLower d.walletAddress == w && d.electionId == e
  | _ => false

/-- Success flag and successor state of one `backend.js` request. -/
def bflag (r : BReq) (s : BDB) : Bool × BDB :=
  ((bstep r s).1.success, (bstep r s).2)

/-- Number of successful casts for the pair `(w, e)` along a
`backend.js` trace. -/
def castSuccessCountB (w : String) (e : Nat) (rs : List BReq) (s : BDB) : Nat :=
  countSucc bflag (isCastForB w e) rs s

/-- Sum of the cached `Votes` fields over the candidates of one
election in the `backend.js` database. -/
def sumCandidateVotesB (s : BDB) (eid : Nat) : Nat :=
  ((s.candidates.filter (fun c => c.ElectionID == eid)).map (·.Votes)).sum

end Backend

/-! Concrete test fixtures (the scenario of spec §8: one election, the
candidates Alice and Bob, one recorded vote), used to instantiate the
hypothesis-bearing theorems below at explicit inputs. -/

/-- A config whose admin allow-list holds one address. -/
def demoCfg : Server.SConfig := ⟨["0xadmin"], ""⟩

/-- A well-formed wallet address in mixed case. -/
def demoWallet : String := "0xAAaaaaaaaaaaaaaaaaaaaaaaaaaaaaaaaaaaaaaa"

/-- State after `createElection` (election 1, ends at instant 0). -/
def demoS1 : Server.SDB :=
  (Server.createElection demoCfg ⟨"0xAdmin", "E1", "", none, some 0⟩ "t1"
    (Server.initDB "t0")).2

/-- State after adding candidate Alice (candidate 1 of election 1). -/
def demoS2 : Server.SDB := (Server.addCandidate ⟨1, "Alice", ""⟩ "t2" demoS1).2

/-- State after adding candidate Bob (candidate 2 of election 1). -/
def demoS3 : Server.SDB := (Server.addCandidate ⟨1, "Bob", ""⟩ "t3" demoS2).2

/-- State after `demoWallet` voted for Alice in election 1. -/
def demoS4 : Server.SDB :=
  (Server.recordVote ⟨"", demoWallet, 1, 1, 0, 0⟩ "t4" demoS3).2

/-- Backend state after creating elections 1 and 2 and adding one
candidate to election 1. -/
def demoB3 : Backend.BDB :=
  (Backend.addCandidate ⟨1, "A", ""⟩ "t3"
    (Backend.createElection ⟨"E2", "", none, none⟩ "t2"
      (Backend.createElection ⟨"E1", "", none, none⟩ "t1" Backend.initBDB).2).2).2

/-- Backend state after a castVote for election 1 and the NONEXISTENT
candidate 2 (the backend handler does not check candidate existence). -/
def demoB5 : Backend.BDB :=
  (Backend.castVote ⟨"0xaa", 1, 2⟩ "t3"
    (Backend.addCandidate ⟨1, "A", ""⟩ "t2"
      (Backend.createElection ⟨"E1", "", none, none⟩ "t1" Backend.initBDB).2).2).2

/-- Backend state after `0xabc` voted in election 1 for candidate 1. -/
def demoB4 : Backend.BDB :=
  (Backend.castVote ⟨"0xabc", 1, 1⟩ "t4"
    (Backend.addCandidate ⟨1, "A", ""⟩ "t3"
      (Backend.createElection ⟨"E1", "", none, none⟩ "t1" Backend.initBDB).2).2).2

/-- Stated from the spec's words, for comparison with the two
`getActiveElections` implementations: an election is active at instant
`now` when `startAt ≤ now ≤ endAt`, an absent `startAt` meaning
unbounded past and an absent `endAt` unbounded future. -/
def specActiveWindow (startAt endAt : Option Int) (now : Int) : Bool :=
  (match startAt with
   | none => true
   | some t => decide (t ≤ now)) &&
  (match endAt with
   | none => true
   | some t => decide (now ≤ t))

/-! Basic facts about the string model. -/

theorem char_toNat_ofNat_small (n : Nat) (h : n < 55296) : (Char.ofNat n).toNat = n := by
  unfold Char.ofNat
  rw [dif_pos (Or.inl h)]
  rfl

theorem jsLowerChar_toNat (c : Char) :
    (jsLowerChar c).toNat = if 65 ≤ c.toNat ∧ c.toNat ≤ 90 then c.toNat + 32 else c.toNat := by
  unfold jsLowerChar
  split
  · next h => exact char_toNat_ofNat_small _ (by omega)
  · rfl

theorem char_eq_of_toNat_eq {a b : Char} (h : a.toNat = b.toNat) : a = b :=
  Char.eq_of_val_eq (UInt32.eq_of_toBitVec_eq (BitVec.eq_of_toNat_eq h))

theorem jsLowerChar_idem (c : Char) : jsLowerChar (jsLowerChar c) = jsLowerChar c := by
  have h1 := jsLowerChar_toNat c
  apply char_eq_of_toNat_eq
  rw [jsLowerChar_toNat (jsLowerChar c)]
  split
  · next h => rw [h1] at h; split at h <;> omega
  · rfl

theorem jsIsSpace_jsLowerChar (c : Char) : jsIsSpace (jsLowerChar c) = jsIsSpace c := by
  simp only [jsIsSpace, jsLowerChar_toNat]
  split
  · next h =>
    rw [Bool.eq_iff_iff]
    simp only [Bool.or_eq_true, decide_eq_true_eq]
    omega
  · rfl

theorem mem_trimChars {c : Char} {l : List Char} (h : c ∈ trimChars l) : c ∈ l := by
  unfold trimChars at h
  rw [List.mem_reverse] at h
  have h1 := (List.dropWhile_sublist jsIsSpace).mem h
  rw [List.mem_reverse] at h1
  exact (List.dropWhile_sublist jsIsSpace).mem h1

theorem mk_data (s : String) : String.mk s.data = s := rfl

theorem jsToLower_data (s : String) : (jsToLower s).data = s.data.map jsLowerChar := rfl

theorem jsTrim_data (s : String) : (jsTrim s).data = trimChars s.data := rfl

/-- Lower-casing fixes any string whose characters are all already
fixed by lower-casing; consequence: `jsToLower` is idempotent through
`jsTrim`, so a stored normalized wallet survives the handlers'
re-lower-casing. -/
theorem normWallet_toLower (s : String) : jsToLower (normWallet s) = normWallet s := by
  show String.mk ((trimChars (s.data.map jsLowerChar)).map jsLowerChar) =
    String.mk (trimChars (s.data.map jsLowerChar))
  congr 1
  have fix : ∀ c ∈ trimChars (s.data.map jsLowerChar), jsLowerChar c = c := by
    intro c hc
    have := mem_trimChars hc
    rw [List.mem_map] at this
    obtain ⟨a, _, rfl⟩ := this
    exact jsLowerChar_idem a
  calc (trimChars (s.data.map jsLowerChar)).map jsLowerChar
      = (trimChars (s.data.map jsLowerChar)).map id := List.map_congr_left fix
    _ = _ := List.map_id _

theorem jsToLower_length (s : String) : (jsToLower s).data.length = s.data.length := by
  rw [jsToLower_data, List.length_map]

theorem eq_empty_of_data_nil {s : String} (h : s.data = []) : s = "" := by
  have h2 := congrArg String.mk h
  rw [mk_data] at h2
  exact h2

theorem jsToLower_eq_empty {s : String} (h : jsToLower s = "") : s = "" := by
  apply eq_empty_of_data_nil
  have := congrArg String.data h
  rw [jsToLower_data] at this
  simpa using List.map_eq_nil_iff.mp this

/-! Generic once-only counting argument: if a predicate-matching request
can only succeed from a not-yet-voted state, success marks the state as
voted, and votedness is never cleared, then at most one matching request
of any trace succeeds — and none does from a voted state. -/

theorem countSucc_le_one {S R : Type} (step : R → S → Bool × S) (pred : R → Bool)
    (voted : S → Bool)
    (hblock : ∀ r s, pred r = true → voted s = true → (step r s).1 = false)
    (hmark : ∀ r s, pred r = true → (step r s).1 = true → voted (step r s).2 = true)
    (hmono : ∀ r s, voted s = true → voted (step r s).2 = true) :
    ∀ (rs : List R) (s : S),
      (voted s = true → countSucc step pred rs s = 0) ∧ countSucc step pred rs s ≤ 1 := by
  intro rs
  induction rs with
  | nil => intro s; exact ⟨fun _ => rfl, by simp [countSucc]⟩
  | cons r rs ih =>
    intro s
    constructor
    · intro hv
      have hz : (if pred r && (step r s).1 then 1 else 0) = 0 := by
        by_cases hp : pred r = true
        · rw [hblock r s hp hv]; simp
        · simp only [Bool.not_eq_true] at hp
          simp [hp]
      simp only [countSucc, hz, (ih _).1 (hmono r s hv)]
    · simp only [countSucc]
      by_cases hc : (pred r && (step r s).1) = true
      · rw [if_pos hc]
        simp only [Bool.and_eq_true] at hc
        have := (ih _).1 (hmark r s hc.1 hc.2)
        omega
      · rw [if_neg hc]
        have := (ih ((step r s).2)).2
        omega

namespace Server

/-! Projection behaviour of the small state transformers. -/

@[simp] theorem voters_logBlockchain (now a det : String) (s : SDB) :
    (logBlockchain now a det s).voters = s.voters := rfl

@[simp] theorem elections_logBlockchain (now a det : String) (s : SDB) :
    (logBlockchain now a det s).elections = s.elections := rfl

@[simp] theorem candidates_logBlockchain (now a det : String) (s : SDB) :
    (logBlockchain now a det s).candidates = s.candidates := rfl

@[simp] theorem votes_logBlockchain (now a det : String) (s : SDB) :
    (logBlockchain now a det s).votes = s.votes := rfl

@[simp] theorem audit_logBlockchain (now a det : String) (s : SDB) :
    (logBlockchain now a det s).audit = s.audit := rfl

@[simp] theorem blockchain_logBlockchain (now a det : String) (s : SDB) :
    (logBlockchain now a det s).blockchain =
      s.blockchain ++ [⟨now, a, det, "", s.blockchain.length⟩] := rfl

@[simp] theorem voters_logAudit (now a u det st e : String) (s : SDB) :
    (logAudit now a u det st e s).voters = s.voters := rfl

@[simp] theorem elections_logAudit (now a u det st e : String) (s : SDB) :
    (logAudit now a u det st e s).elections = s.elections := rfl

@[simp] theorem candidates_logAudit (now a u det st e : String) (s : SDB) :
    (logAudit now a u det st e s).candidates = s.candidates := rfl

@[simp] theorem votes_logAudit (now a u det st e : String) (s : SDB) :
    (logAudit now a u det st e s).votes = s.votes := rfl

@[simp] theorem blockchain_logAudit (now a u det st e : String) (s : SDB) :
    (logAudit now a u det st e s).blockchain = s.blockchain := rfl

@[simp] theorem audit_logAudit (now a u det st e : String) (s : SDB) :
    (logAudit now a u det st e s).audit = s.audit ++ [⟨now, a, u, det, st, e⟩] := rfl

@[simp] theorem voters_updateStats (now : String) (s : SDB) :
    (updateStats now s).voters = s.voters := rfl

@[simp] theorem elections_updateStats (now : String) (s : SDB) :
    (updateStats now s).elections = s.elections := rfl

@[simp] theorem candidates_updateStats (now : String) (s : SDB) :
    (updateStats now s).candidates = s.candidates := rfl

@[simp] theorem votes_updateStats (now : String) (s : SDB) :
    (updateStats now s).votes = s.votes := rfl

@[simp] theorem blockchain_updateStats (now : String) (s : SDB) :
    (updateStats now s).blockchain = s.blockchain := rfl

@[simp] theorem audit_updateStats (now : String) (s : SDB) :
    (updateStats now s).audit = s.audit := rfl

@[simp] theorem voters_updateCandidateVotes (eid : Nat) (s : SDB) :
    (updateCandidateVotes eid s).voters = s.voters := rfl

@[simp] theorem elections_updateCandidateVotes (eid : Nat) (s : SDB) :
    (updateCandidateVotes eid s).elections = s.elections := rfl

@[simp] theorem votes_updateCandidateVotes (eid : Nat) (s : SDB) :
    (updateCandidateVotes eid s).votes = s.votes := rfl

@[simp] theorem blockchain_updateCandidateVotes (eid : Nat) (s : SDB) :
    (updateCandidateVotes eid s).blockchain = s.blockchain := rfl

@[simp] theorem audit_updateCandidateVotes (eid : Nat) (s : SDB) :
    (updateCandidateVotes eid s).audit = s.audit := rfl

theorem candidates_updateCandidateVotes (eid : Nat) (s : SDB) :
    (updateCandidateVotes eid s).candidates = s.candidates.map (fun c =>
      if c.electionId == eid then
        { c with votes := countVotes s.votes eid c.candidateId,
                 percentage := pctString (countVotes s.votes eid c.candidateId)
                   (countElectionVotes s.votes eid) }
      else c) := rfl

@[simp] theorem voters_updateElectionTotalVotes (eid : Nat) (s : SDB) :
    (updateElectionTotalVotes eid s).voters = s.voters := rfl

@[simp] theorem candidates_updateElectionTotalVotes (eid : Nat) (s : SDB) :
    (updateElectionTotalVotes eid s).candidates = s.candidates := rfl

@[simp] theorem votes_updateElectionTotalVotes (eid : Nat) (s : SDB) :
    (updateElectionTotalVotes eid s).votes = s.votes := rfl

@[simp] theorem blockchain_updateElectionTotalVotes (eid : Nat) (s : SDB) :
    (updateElectionTotalVotes eid s).blockchain = s.blockchain := rfl

@[simp] theorem audit_updateElectionTotalVotes (eid : Nat) (s : SDB) :
    (updateElectionTotalVotes eid s).audit = s.audit := rfl

theorem elections_updateElectionTotalVotes (eid : Nat) (s : SDB) :
    (updateElectionTotalVotes eid s).elections =
      setFirstElection eid (fun e => { e with totalVotes := countElectionVotes s.votes eid })
        s.elections := rfl

@[simp] theorem sFail_success (now a u e : String) (s : SDB) :
    (sFail now a u e s).1.success = false := rfl

@[simp] theorem sFail_error (now a u e : String) (s : SDB) :
    (sFail now a u e s).1.error = e := rfl

theorem sFail_snd (now a u e : String) (s : SDB) :
    (sFail now a u e s).2 = logAudit now a u "request" "error" e s := rfl

/-! Behaviour of `recordVote` on its branches. -/

theorem recordVote_success_votes (d : VoteData) (now : String) (s : SDB)
    (h : (recordVote d now s).1.success = true) :
    (recordVote d now s).2.votes = s.votes ++
      [⟨d.txHash, normWallet d.walletAddress, d.electionId, d.candidateId, now,
        d.blockNumber, d.gasUsed, "Confirmado"⟩] := by
  unfold recordVote at h ⊢
  split_ifs at h ⊢ <;> simp_all [sFail_snd]

theorem recordVote_fail_votes (d : VoteData) (now : String) (s : SDB)
    (h : (recordVote d now s).1.success = false) :
    (recordVote d now s).2.votes = s.votes := by
  unfold recordVote at h ⊢
  split_ifs at h ⊢ <;> simp_all [sFail_snd]

theorem recordVote_already (d : VoteData) (now : String) (s : SDB)
    (hw : normWallet d.walletAddress ≠ "") (he : d.electionId ≠ 0) (hc : d.candidateId ≠ 0)
    (hv : hasVoted s (normWallet d.walletAddress) d.electionId = true) :
    (recordVote d now s).1.success = false ∧
    (recordVote d now s).1.error = "El votante ya emitió su voto en esta elección" ∧
    (recordVote d now s).2.votes = s.votes := by
  unfold recordVote
  rw [if_neg (by simp [hw, he, hc]), if_pos hv]
  exact ⟨rfl, rfl, rfl⟩

theorem sstep_votes_prefix (cfg : SConfig) (r : SReq) (s : SDB) :
    ∃ t, (sstep cfg r s).2.votes = s.votes ++ t := by
  cases r with
  | registerVoter d now =>
    refine ⟨[], ?_⟩
    rw [List.append_nil]
    show (registerVoter d now s).2.votes = s.votes
    unfold registerVoter
    split_ifs <;> simp [sFail_snd]
  | createElection d now =>
    refine ⟨[], ?_⟩
    rw [List.append_nil]
    show (createElection cfg d now s).2.votes = s.votes
    unfold createElection
    split_ifs <;> simp [sFail_snd]
  | addCandidate d now =>
    refine ⟨[], ?_⟩
    rw [List.append_nil]
    show (addCandidate d now s).2.votes = s.votes
    unfold addCandidate
    split_ifs <;> simp [sFail_snd]
  | castVote d now =>
    show ∃ t, (recordVote d now s).2.votes = s.votes ++ t
    by_cases h : (recordVote d now s).1.success = true
    · exact ⟨_, recordVote_success_votes d now s h⟩
    · refine ⟨[], ?_⟩
      rw [List.append_nil]
      exact recordVote_fail_votes d now s (by simpa using h)

theorem hasVoted_mono (cfg : SConfig) (r : SReq) (s : SDB) (w : String) (e : Nat)
    (h : hasVoted s w e = true) : hasVoted (sstep cfg r s).2 w e = true := by
  obtain ⟨t, ht⟩ := sstep_votes_prefix cfg r s
  unfold hasVoted at h ⊢
  rw [ht, List.any_append, h, Bool.true_or]

theorem sflag_blocked (cfg : SConfig) (w : String) (e : Nat) (r : SReq) (s : SDB)
    (hp : isCastFor w e r = true) (hv : hasVoted s w e = true) :
    (sflag cfg r s).1 = false := by
  cases r with
  | registerVoter d now => simp [isCastFor] at hp
  | createElection d now => simp [isCastFor] at hp
  | addCandidate d now => simp [isCastFor] at hp
  | castVote d now =>
    simp only [isCastFor, Bool.and_eq_true, beq_iff_eq] at hp
    obtain ⟨hw, he⟩ := hp
    show (recordVote d now s).1.success = false
    unfold recordVote
    split_ifs with h1 h2 h3 <;> try rfl
    rw [hw, he] at h2
    exact absurd hv h2

theorem sflag_marks (cfg : SConfig) (w : String) (e : Nat) (r : SReq) (s : SDB)
    (hp : isCastFor w e r = true) (hs : (sflag cfg r s).1 = true) :
    hasVoted (sflag cfg r s).2 w e = true := by
  cases r with
  | registerVoter d now => simp [isCastFor] at hp
  | createElection d now => simp [isCastFor] at hp
  | addCandidate d now => simp [isCastFor] at hp
  | castVote d now =>
    simp only [isCastFor, Bool.and_eq_true, beq_iff_eq] at hp
    obtain ⟨hw, he⟩ := hp
    have hv := recordVote_success_votes d now s hs
    show hasVoted (recordVote d now s).2 w e = true
    unfold hasVoted
    rw [hv, List.any_append]
    have : jsToLower (normWallet d.walletAddress) = w := by
      rw [normWallet_toLower, hw]
    simp [this, he]

end Server

namespace Backend

/-! Behaviour of the `backend.js` `castVote` handler on its branches. -/

theorem bcastVote_success_votes (d : BVoteData) (now : String) (s : BDB)
    (h : (castVote d now s).1.success = true) :
    (castVote d now s).2.votes = s.votes ++
      [⟨nextId (s.votes.map (·.VoteID)), d.walletAddress, d.electionId, d.candidateId, now⟩] := by
  unfold castVote at h ⊢
  split_ifs at h ⊢ <;> simp_all

theorem bcastVote_fail_votes (d : BVoteData) (now : String) (s : BDB)
    (h : (castVote d now s).1.success = false) :
    (castVote d now s).2.votes = s.votes := by
  unfold castVote at h ⊢
  split_ifs at h ⊢ <;> simp_all

theorem bcastVote_already (d : BVoteData) (now : String) (s : BDB)
    (hw : d.walletAddress ≠ "") (he : d.electionId ≠ 0) (hc : d.candidateId ≠ 0)
    (hv : hasVotedB s (jsToLower d.walletAddress) d.electionId = true) :
    (castVote d now s).1.success = false ∧
    (castVote d now s).1.error = "Ya votó" ∧
    (castVote d now s).2.votes = s.votes := by
  unfold castVote
  rw [if_neg (by simp [hw, he, hc]), if_pos hv]
  exact ⟨rfl, rfl, rfl⟩

theorem bstep_votes_prefix (r : BReq) (s : BDB) :
    ∃ t, (bstep r s).2.votes = s.votes ++ t := by
  cases r with
  | registerVoter d now =>
    refine ⟨[], ?_⟩
    rw [List.append_nil]
    show (registerVoter d now s).2.votes = s.votes
    unfold registerVoter
    split_ifs <;> simp
  | createElection d now =>
    refine ⟨[], ?_⟩
    rw [List.append_nil]
    rfl
  | addCandidate d now =>
    refine ⟨[], ?_⟩
    rw [List.append_nil]
    show (addCandidate d now s).2.votes = s.votes
    unfold addCandidate
    split_ifs <;> simp
  | castVote d now =>
    show ∃ t, (castVote d now s).2.votes = s.votes ++ t
    by_cases h : (castVote d now s).1.success = true
    · exact ⟨_, bcastVote_success_votes d now s h⟩
    · refine ⟨[], ?_⟩
      rw [List.append_nil]
      exact bcastVote_fail_votes d now s (by simpa using h)

theorem hasVotedB_mono (r : BReq) (s : BDB) (w : String) (e : Nat)
    (h : hasVotedB s w e = true) : hasVotedB (bstep r s).2 w e = true := by
  obtain ⟨t, ht⟩ := bstep_votes_prefix r s
  unfold hasVotedB at h ⊢
  rw [ht, List.any_append, h, Bool.true_or]

theorem bflag_blocked (w : String) (e : Nat) (r : BReq) (s : BDB)
    (hp : isCastForB w e r = true) (hv : hasVotedB s w e = true) :
    (bflag r s).1 = false := by
  cases r with
  | registerVoter d now => simp [isCastForB] at hp
  | createElection d now => simp [isCastForB] at hp
  | addCandidate d now => simp [isCastForB] at hp
  | castVote d now =>
    simp only [isCastForB, Bool.and_eq_true, beq_iff_eq] at hp
    obtain ⟨hw, he⟩ := hp
    show (castVote d now s).1.success = false
    unfold castVote
    split_ifs with h1 h2 <;> try rfl
    rw [hw, he] at h2
    exact absurd hv h2

theorem bflag_marks (w : String) (e : Nat) (r : BReq) (s : BDB)
    (hp : isCastForB w e r = true) (hs : (bflag r s).1 = true) :
    hasVotedB (bflag r s).2 w e = true := by
  cases r with
  | registerVoter d now => simp [isCastForB] at hp
  | createElection d now => simp [isCastForB] at hp
  | addCandidate d now => simp [isCastForB] at hp
  | castVote d now =>
    simp only [isCastForB, Bool.and_eq_true, beq_iff_eq] at hp
    obtain ⟨hw, he⟩ := hp
    have hv := bcastVote_success_votes d now s hs
    show hasVotedB (castVote d now s).2 w e = true
    unfold hasVotedB
    rw [hv, List.any_append]
    simp [hw, he]

end Backend

namespace Server

/-! Behaviour of `registerVoter` on its branches. -/

theorem registerVoter_success_parts (d : RegisterData) (now : String) (s : SDB)
    (h : (registerVoter d now s).1.success = true) :
    normWallet d.walletAddress ≠ "" ∧
    isValidWallet (normWallet d.walletAddress) = true ∧
    (registerVoter d now s).2.voters = s.voters ++
      [⟨normWallet d.walletAddress, jsTrim d.name, jsTrim d.idNumber, jsTrim d.email,
        now, "Activo"⟩] := by
  unfold registerVoter at h ⊢
  split_ifs at h ⊢ with h1 h2 h3 <;> try simp at h
  exact ⟨fun hw => h1 (Or.inl hw), by simpa using h2, by simp⟩

theorem registerVoter_dup (d : RegisterData) (now : String) (s : SDB)
    (hw : normWallet d.walletAddress ≠ "") (hn : jsTrim d.name ≠ "")
    (hi : jsTrim d.idNumber ≠ "") (hf : isValidWallet (normWallet d.walletAddress) = true)
    (hdup : (s.voters.any fun v => jsToLower v.walletAddress == normWallet d.walletAddress)
      = true) :
    (registerVoter d now s).1.success = false ∧
    (registerVoter d now s).1.error = "Votante ya registrado con esta wallet" ∧
    (registerVoter d now s).2.voters = s.voters := by
  unfold registerVoter
  rw [if_neg (by simp [hw, hn, hi]), if_neg (by simp [hf]), if_pos hdup]
  exact ⟨rfl, rfl, rfl⟩

end Server

namespace Backend

/-! Behaviour of the `backend.js` `registerVoter` handler. -/

theorem bregisterVoter_success_parts (d : BRegisterData) (now : String) (s : BDB)
    (h : (registerVoter d now s).1.success = true) :
    d.walletAddress ≠ "" ∧
    (registerVoter d now s).2.voters = s.voters ++
      [⟨nextId (s.voters.map (·.VoterID)), d.walletAddress, d.name, d.idNumber, d.email,
        now, d.ipAddress⟩] := by
  unfold registerVoter at h ⊢
  split_ifs at h ⊢ with h1 h2 <;> try simp at h
  exact ⟨fun hw => h1 (Or.inl hw), by simp⟩

theorem bregisterVoter_dup (d : BRegisterData) (now : String) (s : BDB)
    (hw : d.walletAddress ≠ "") (hn : d.name ≠ "") (hi : d.idNumber ≠ "")
    (hdup : (s.voters.any fun v => jsToLower v.Wallet == jsToLower d.walletAddress) = true) :
    (registerVoter d now s).1.success = false ∧
    (registerVoter d now s).1.error = "Wallet ya registrada" ∧
    (registerVoter d now s).2.voters = s.voters := by
  unfold registerVoter
  rw [if_neg (by simp [hw, hn, hi]), if_pos hdup]
  exact ⟨rfl, rfl, rfl⟩

end Backend

/-- C5 — Registration uniqueness.  After a successful registration, a
second `registerVoter` call whose wallet is the same up to letter case
(and which passes the presence validation) fails with the
duplicate-voter error, and the stored voters are exactly those after
the first call.  Proved for both `server.js` (wallets normalized with
`toLowerCase().trim()`) and `backend.js` (wallets compared
lower-cased). -/
theorem c5_registration_uniqueness :
    (∀ (d1 d2 : Server.RegisterData) (n1 n2 : String) (s : Server.SDB),
        (Server.registerVoter d1 n1 s).1.success = true →
        normWallet d2.walletAddress = normWallet d1.walletAddress →
        jsTrim d2.name ≠ "" → jsTrim d2.idNumber ≠ "" →
        (Server.registerVoter d2 n2 (Server.registerVoter d1 n1 s).2).1.success = false ∧
        (Server.registerVoter d2 n2 (Server.registerVoter d1 n1 s).2).1.error =
          "Votante ya registrado con esta wallet" ∧
        (Server.registerVoter d2 n2 (Server.registerVoter d1 n1 s).2).2.voters =
          (Server.registerVoter d1 n1 s).2.voters) ∧
    (∀ (d1 d2 : Backend.BRegisterData) (n1 n2 : String) (s : Backend.BDB),
        (Backend.registerVoter d1 n1 s).1.success = true →
        jsToLower d2.walletAddress = jsToLower d1.walletAddress →
        d2.name ≠ "" → d2.idNumber ≠ "" →
        (Backend.registerVoter d2 n2 (Backend.registerVoter d1 n1 s).2).1.success = false ∧
        (Backend.registerVoter d2 n2 (Backend.registerVoter d1 n1 s).2).1.error =
          "Wallet ya registrada" ∧
        (Backend.registerVoter d2 n2 (Backend.registerVoter d1 n1 s).2).2.voters =
          (Backend.registerVoter d1 n1 s).2.voters) := by
  constructor
  · intro d1 d2 n1 n2 s h1 heq hn hi
    obtain ⟨hw1, hf1, hvoters⟩ := Server.registerVoter_success_parts d1 n1 s h1
    apply Server.registerVoter_dup
    · rw [heq]; exact hw1
    · exact hn
    · exact hi
    · rw [heq]; exact hf1
    · rw [hvoters, List.any_append]
      have : (jsToLower (normWallet d1.walletAddress) == normWallet d2.walletAddress) = true := by
        rw [normWallet_toLower, heq]
        simp
      simp [this]
  · intro d1 d2 n1 n2 s h1 heq hn hi
    obtain ⟨hw1, hvoters⟩ := Backend.bregisterVoter_success_parts d1 n1 s h1
    apply Backend.bregisterVoter_dup
    · intro hw2
      apply hw1
      apply jsToLower_eq_empty
      rw [← heq, hw2]
      rfl
    · exact hn
    · exact hi
    · rw [hvoters, List.any_append]
      simp [heq]

/-- Witness for C5: a concrete voter registered under `demoWallet`
cannot be registered again under the all-lower-case spelling of the
same wallet, in either implementation. -/
theorem c5_registration_uniqueness_witness :
    ((Server.registerVoter ⟨jsToLower demoWallet, "Eva", "77", ""⟩ "t2"
        (Server.registerVoter ⟨demoWallet, "Ana", "99", ""⟩ "t1" (Server.initDB "t0")).2).1.success
        = false ∧
     (Server.registerVoter ⟨jsToLower demoWallet, "Eva", "77", ""⟩ "t2"
        (Server.registerVoter ⟨demoWallet, "Ana", "99", ""⟩ "t1" (Server.initDB "t0")).2).1.error
        = "Votante ya registrado con esta wallet" ∧
     (Server.registerVoter ⟨jsToLower demoWallet, "Eva", "77", ""⟩ "t2"
        (Server.registerVoter ⟨demoWallet, "Ana", "99", ""⟩ "t1" (Server.initDB "t0")).2).2.voters
        = (Server.registerVoter ⟨demoWallet, "Ana", "99", ""⟩ "t1" (Server.initDB "t0")).2.voters) ∧
    ((Backend.registerVoter ⟨"0xabc", "Eva", "77", "", ""⟩ "t2"
        (Backend.registerVoter ⟨"0xAbC", "Ana", "99", "", ""⟩ "t1" Backend.initBDB).2).1.success
        = false ∧
     (Backend.registerVoter ⟨"0xabc", "Eva", "77", "", ""⟩ "t2"
        (Backend.registerVoter ⟨"0xAbC", "Ana", "99", "", ""⟩ "t1" Backend.initBDB).2).1.error
        = "Wallet ya registrada" ∧
     (Backend.registerVoter ⟨"0xabc", "Eva", "77", "", ""⟩ "t2"
        (Backend.registerVoter ⟨"0xAbC", "Ana", "99", "", ""⟩ "t1" Backend.initBDB).2).2.voters
        = (Backend.registerVoter ⟨"0xAbC", "Ana", "99", "", ""⟩ "t1" Backend.initBDB).2.voters) := by
  have h := c5_registration_uniqueness
  exact ⟨h.1 ⟨demoWallet, "Ana", "99", ""⟩ ⟨jsToLower demoWallet, "Eva", "77", ""⟩ "t1" "t2"
      (Server.initDB "t0") (by decide) (by decide) (by decide) (by decide),
    h.2 ⟨"0xAbC", "Ana", "99", "", ""⟩ ⟨"0xabc", "Eva", "77", "", ""⟩ "t1" "t2"
      Backend.initBDB (by decide) (by decide) (by decide) (by decide)⟩

/-- C1 — One-vote invariant.  Along any trace of mutating requests from
a fresh system, at most one cast for a wallet-election pair `(w, e)`
succeeds (wallets compared case-insensitively); and once a vote for
`(w, e)` is stored, any further cast request carrying that pair (and all
three parameters present, as a cast supplies) fails with the
already-voted error and leaves the vote sequence unchanged.  Both parts
hold in `server.js` (`recordVote`, dispatched also under the `castVote`
alias) and in `backend.js` (`castVote` handler). -/
theorem c1_one_vote_invariant :
    (∀ (cfg : Server.SConfig) (t w : String) (e : Nat) (rs : List Server.SReq),
        Server.castSuccessCount cfg w e rs (Server.initDB t) ≤ 1) ∧
    (∀ (d : Server.VoteData) (now : String) (s : Server.SDB),
        normWallet d.walletAddress ≠ "" → d.electionId ≠ 0 → d.candidateId ≠ 0 →
        Server.hasVoted s (normWallet d.walletAddress) d.electionId = true →
        (Server.recordVote d now s).1.success = false ∧
        (Server.recordVote d now s).1.error = "El votante ya emitió su voto en esta elección" ∧
        (Server.recordVote d now s).2.votes = s.votes) ∧
    (∀ (w : String) (e : Nat) (rs : List Backend.BReq),
        Backend.castSuccessCountB w e rs Backend.initBDB ≤ 1) ∧
    (∀ (d : Backend.BVoteData) (now : String) (s : Backend.BDB),
        d.walletAddress ≠ "" → d.electionId ≠ 0 → d.candidateId ≠ 0 →
        Backend.hasVotedB s (jsToLower d.walletAddress) d.electionId = true →
        (Backend.castVote d now s).1.success = false ∧
        (Backend.castVote d now s).1.error = "Ya votó" ∧
        (Backend.castVote d now s).2.votes = s.votes) := by
  refine ⟨?_, ?_, ?_, ?_⟩
  · intro cfg t w e rs
    exact (countSucc_le_one (Server.sflag cfg) (Server.isCastFor w e)
      (fun s => Server.hasVoted s w e)
      (fun r s => Server.sflag_blocked cfg w e r s)
      (fun r s => Server.sflag_marks cfg w e r s)
      (fun r s => Server.hasVoted_mono cfg r s w e) rs (Server.initDB t)).2
  · intro d now s hw he hc hv
    exact Server.recordVote_already d now s hw he hc hv
  · intro w e rs
    exact (countSucc_le_one Backend.bflag (Backend.isCastForB w e)
      (fun s => Backend.hasVotedB s w e)
      (fun r s => Backend.bflag_blocked w e r s)
      (fun r s => Backend.bflag_marks w e r s)
      (fun r s => Backend.hasVotedB_mono r s w e) rs Backend.initBDB).2
  · intro d now s hw he hc hv
    exact Backend.bcastVote_already d now s hw he hc hv

/-- Witness for C1: instantiates both already-voted clauses at the
concrete §8 scenario — a second cast from the same wallet (in different
letter case) for another candidate fails and appends nothing. -/
theorem c1_one_vote_invariant_witness :
    ((Server.recordVote ⟨"", demoWallet, 1, 2, 0, 0⟩ "t5" demoS4).1.success = false ∧
     (Server.recordVote ⟨"", demoWallet, 1, 2, 0, 0⟩ "t5" demoS4).1.error =
       "El votante ya emitió su voto en esta elección" ∧
     (Server.recordVote ⟨"", demoWallet, 1, 2, 0, 0⟩ "t5" demoS4).2.votes = demoS4.votes) ∧
    ((Backend.castVote ⟨"0xABC", 1, 2⟩ "t5" demoB4).1.success = false ∧
     (Backend.castVote ⟨"0xABC", 1, 2⟩ "t5" demoB4).1.error = "Ya votó" ∧
     (Backend.castVote ⟨"0xABC", 1, 2⟩ "t5" demoB4).2.votes = demoB4.votes) := by
  have h := c1_one_vote_invariant
  exact ⟨h.2.1 ⟨"", demoWallet, 1, 2, 0, 0⟩ "t5" demoS4 (by decide) (by decide) (by decide)
      (by decide),
    h.2.2.2 ⟨"0xABC", 1, 2⟩ "t5" demoB4 (by decide) (by decide) (by decide) (by decide)⟩

namespace Server

theorem recordVote_success_of (d : VoteData) (now : String) (s : SDB)
    (hw : normWallet d.walletAddress ≠ "") (he : d.electionId ≠ 0) (hc : d.candidateId ≠ 0)
    (hv : hasVoted s (normWallet d.walletAddress) d.electionId = false)
    (hcand : (s.candidates.any fun c =>
      c.electionId == d.electionId && c.candidateId == d.candidateId) = true) :
    (recordVote d now s).1.success = true ∧
    (recordVote d now s).2.votes = s.votes ++
      [⟨d.txHash, normWallet d.walletAddress, d.electionId, d.candidateId, now,
        d.blockNumber, d.gasUsed, "Confirmado"⟩] := by
  unfold recordVote
  rw [if_neg (by simp [hw, he, hc]), if_neg (by simp [hv]), if_neg (by simp [hcand])]
  exact ⟨rfl, by simp⟩

theorem createElection_success_admin (cfg : SConfig) (d : ElectionData) (now : String)
    (s : SDB) (h : (createElection cfg d now s).1.success = true) :
    normWallet d.adminAddress ∈ cfg.adminAddresses := by
  unfold createElection at h
  split_ifs at h with h1 h2 <;> try simp at h
  exact h2

theorem createElection_unauthorized (cfg : SConfig) (d : ElectionData) (now : String)
    (s : SDB) (ht : jsTrim d.title ≠ "") (ha : normWallet d.adminAddress ≠ "")
    (hm : normWallet d.adminAddress ∉ cfg.adminAddresses) :
    (createElection cfg d now s).1.success = false ∧
    (createElection cfg d now s).1.error = "No autorizado: dirección no es admin" ∧
    (createElection cfg d now s).2.elections = s.elections := by
  unfold createElection
  rw [if_neg (by simp [ht, ha]), if_pos hm]
  exact ⟨rfl, rfl, rfl⟩

theorem createElection_missing_admin (cfg : SConfig) (d : ElectionData) (now : String)
    (s : SDB) (ha : normWallet d.adminAddress = "") :
    (createElection cfg d now s).1.success = false ∧
    (createElection cfg d now s).1.error = "Dirección de admin y título son obligatorios" ∧
    (createElection cfg d now s).2.elections = s.elections := by
  unfold createElection
  rw [if_pos (Or.inl ha)]
  exact ⟨rfl, rfl, rfl⟩

end Server

namespace Backend

theorem bcastVote_success_of (d : BVoteData) (now : String) (s : BDB)
    (hw : d.walletAddress ≠ "") (he : d.electionId ≠ 0) (hc : d.candidateId ≠ 0)
    (hv : hasVotedB s (jsToLower d.walletAddress) d.electionId = false) :
    (castVote d now s).1.success = true ∧
    (castVote d now s).2.votes = s.votes ++
      [⟨nextId (s.votes.map (·.VoteID)), d.walletAddress, d.electionId, d.candidateId,
        now⟩] := by
  unfold castVote
  rw [if_neg (by simp [hw, he, hc]), if_neg (by simp [hv])]
  exact ⟨rfl, by simp⟩

end Backend

/-- C9 — Implicit: the cast path never consults the voter registry.
With the election-scoped candidate present and no prior vote for the
pair, a cast succeeds and appends its vote for ANY content of the
voters collection — in particular for a wallet that was never
registered — in both implementations; no voter-not-found error exists
on this path. -/
theorem c9_cast_ignores_registry :
    (∀ (d : Server.VoteData) (now : String) (s : Server.SDB) (V : List Server.SVoter),
        normWallet d.walletAddress ≠ "" → d.electionId ≠ 0 → d.candidateId ≠ 0 →
        Server.hasVoted s (normWallet d.walletAddress) d.electionId = false →
        (s.candidates.any fun c =>
          c.electionId == d.electionId && c.candidateId == d.candidateId) = true →
        (Server.recordVote d now { s with voters := V }).1.success = true ∧
        (Server.recordVote d now { s with voters := V }).2.votes = s.votes ++
          [⟨d.txHash, normWallet d.walletAddress, d.electionId, d.candidateId, now,
            d.blockNumber, d.gasUsed, "Confirmado"⟩]) ∧
    (∀ (d : Backend.BVoteData) (now : String) (s : Backend.BDB) (V : List Backend.BVoter),
        d.walletAddress ≠ "" → d.electionId ≠ 0 → d.candidateId ≠ 0 →
        Backend.hasVotedB s (jsToLower d.walletAddress) d.electionId = false →
        (Backend.castVote d now { s with voters := V }).1.success = true ∧
        (Backend.castVote d now { s with voters := V }).2.votes = s.votes ++
          [⟨Backend.nextId (s.votes.map (·.VoteID)), d.walletAddress, d.electionId,
            d.candidateId, now⟩]) := by
  constructor
  · intro d now s V hw he hc hv hcand
    exact Server.recordVote_success_of d now { s with voters := V } hw he hc hv hcand
  · intro d now s V hw he hc hv
    exact Backend.bcastVote_success_of d now { s with voters := V } hw he hc hv

/-- Witness for C9: with an empty voter registry, the unregistered
`demoWallet` (resp. `0xabc`) casts successfully and the vote is
appended, in both implementations. -/
theorem c9_cast_ignores_registry_witness :
    ((Server.recordVote ⟨"", demoWallet, 1, 1, 0, 0⟩ "t4"
        { demoS3 with voters := [] }).1.success = true ∧
     (Server.recordVote ⟨"", demoWallet, 1, 1, 0, 0⟩ "t4"
        { demoS3 with voters := [] }).2.votes = demoS3.votes ++
          [⟨"", normWallet demoWallet, 1, 1, "t4", 0, 0, "Confirmado"⟩]) ∧
    ((Backend.castVote ⟨"0xabc", 1, 1⟩ "t4" { demoB3 with voters := [] }).1.success = true ∧
     (Backend.castVote ⟨"0xabc", 1, 1⟩ "t4" { demoB3 with voters := [] }).2.votes =
       demoB3.votes ++ [⟨1, "0xabc", 1, 1, "t4"⟩]) := by
  have h := c9_cast_ignores_registry
  exact ⟨h.1 ⟨"", demoWallet, 1, 1, 0, 0⟩ "t4" demoS3 [] (by decide) (by decide) (by decide)
      (by decide) (by decide),
    h.2 ⟨"0xabc", 1, 1⟩ "t4" demoB3 [] (by decide) (by decide) (by decide) (by decide)⟩

/-- C10 as frozen is refuted at one input: with a present title and an
ABSENT `adminAddress`, `createElection` fails with the missing-fields
message, not with the claimed authorization message. -/
theorem c10_counterexample :
    (Server.createElection demoCfg ⟨"", "E", "", none, none⟩ "t"
      (Server.initDB "t0")).1.success = false ∧
    (Server.createElection demoCfg ⟨"", "E", "", none, none⟩ "t"
      (Server.initDB "t0")).1.error = "Dirección de admin y título son obligatorios" ∧
    ¬ ((Server.createElection demoCfg ⟨"", "E", "", none, none⟩ "t"
      (Server.initDB "t0")).1.error = "No autorizado: dirección no es admin") ∧
    (Server.createElection demoCfg ⟨"", "E", "", none, none⟩ "t"
      (Server.initDB "t0")).2.elections = (Server.initDB "t0").elections := by
  refine ⟨rfl, rfl, ?_, rfl⟩
  decide

/-- C10, amended — `createElection` is admin-gated: it succeeds only
when the lower-cased, trimmed `adminAddress` is in the configured
allow-list; with a present title and a present but non-admin address it
fails with `'No autorizado: dirección no es admin'`; with an absent
address it fails with the missing-fields message; in both failure cases
no election is appended. -/
theorem c10_create_election_admin_gate :
    (∀ (cfg : Server.SConfig) (d : Server.ElectionData) (now : String) (s : Server.SDB),
        (Server.createElection cfg d now s).1.success = true →
        normWallet d.adminAddress ∈ cfg.adminAddresses) ∧
    (∀ (cfg : Server.SConfig) (d : Server.ElectionData) (now : String) (s : Server.SDB),
        jsTrim d.title ≠ "" → normWallet d.adminAddress ≠ "" →
        normWallet d.adminAddress ∉ cfg.adminAddresses →
        (Server.createElection cfg d now s).1.success = false ∧
        (Server.createElection cfg d now s).1.error = "No autorizado: dirección no es admin" ∧
        (Server.createElection cfg d now s).2.elections = s.elections) ∧
    (∀ (cfg : Server.SConfig) (d : Server.ElectionData) (now : String) (s : Server.SDB),
        normWallet d.adminAddress = "" →
        (Server.createElection cfg d now s).1.success = false ∧
        (Server.createElection cfg d now s).1.error =
          "Dirección de admin y título son obligatorios" ∧
        (Server.createElection cfg d now s).2.elections = s.elections) :=
  ⟨Server.createElection_success_admin, Server.createElection_unauthorized,
    fun cfg d now s ha => Server.createElection_missing_admin cfg d now s ha⟩

/-- Witness for the amended C10: a non-admin address is rejected with
the authorization message and an absent one with the missing-fields
message; neither call appends an election. -/
theorem c10_create_election_admin_gate_witness :
    ((Server.createElection demoCfg ⟨"0xEvil", "E", "", none, none⟩ "t"
        (Server.initDB "t0")).1.success = false ∧
     (Server.createElection demoCfg ⟨"0xEvil", "E", "", none, none⟩ "t"
        (Server.initDB "t0")).1.error = "No autorizado: dirección no es admin" ∧
     (Server.createElection demoCfg ⟨"0xEvil", "E", "", none, none⟩ "t"
        (Server.initDB "t0")).2.elections = (Server.initDB "t0").elections) ∧
    ((Server.createElection demoCfg ⟨"", "E", "", none, none⟩ "t"
        (Server.initDB "t0")).1.success = false ∧
     (Server.createElection demoCfg ⟨"", "E", "", none, none⟩ "t"
        (Server.initDB "t0")).1.error = "Dirección de admin y título son obligatorios" ∧
     (Server.createElection demoCfg ⟨"", "E", "", none, none⟩ "t"
        (Server.initDB "t0")).2.elections = (Server.initDB "t0").elections) := by
  have h := c10_create_election_admin_gate
  exact ⟨h.2.1 demoCfg ⟨"0xEvil", "E", "", none, none⟩ "t" (Server.initDB "t0")
      (by decide) (by decide) (by decide),
    h.2.2 demoCfg ⟨"", "E", "", none, none⟩ "t" (Server.initDB "t0") (by decide)⟩

/-! Counting helpers for the tally-consistency argument. -/

theorem sum_map_add (l : List Nat) (f g : Nat → Nat) :
    (l.map (fun i => f i + g i)).sum = (l.map f).sum + (l.map g).sum := by
  induction l with
  | nil => rfl
  | cons a l ih => simp only [List.map_cons, List.sum_cons, ih]; omega

theorem sum_map_zero {α : Type} (l : List α) (f : α → Nat) (h : ∀ x ∈ l, f x = 0) :
    (l.map f).sum = 0 := by
  apply List.sum_eq_zero
  intro x hx
  obtain ⟨a, ha, rfl⟩ := List.mem_map.mp hx
  exact h a ha

theorem sum_indicator_eq_one (ids : List Nat) (k : Nat) (hnd : ids.Nodup) (hk : k ∈ ids) :
    (ids.map (fun i => if k = i then 1 else 0)).sum = 1 := by
  induction ids with
  | nil => cases hk
  | cons a l ih =>
    rw [List.map_cons, List.sum_cons]
    rcases List.mem_cons.mp hk with h | h
    · subst h
      rw [if_pos rfl]
      have hz : (l.map (fun i => if k = i then 1 else 0)).sum = 0 := by
        apply sum_map_zero
        intro i hi
        rw [if_neg]
        rintro rfl
        exact (List.nodup_cons.mp hnd).1 hi
      omega
    · have ha : k ≠ a := by
        rintro rfl
        exact (List.nodup_cons.mp hnd).1 h
      rw [if_neg ha, ih (List.nodup_cons.mp hnd).2 h]

/-- With pairwise-distinct ids covering every key of `ks`, summing the
per-id occurrence counts over the ids recovers the length of `ks`. -/
theorem sum_filter_length (ids ks : List Nat) (hnd : ids.Nodup)
    (hcov : ∀ k ∈ ks, k ∈ ids) :
    (ids.map (fun i => (ks.filter (fun k => k == i)).length)).sum = ks.length := by
  induction ks with
  | nil => simp
  | cons k ks ih =>
    have hsplit : (ids.map (fun i => (List.filter (fun x => x == i) (k :: ks)).length)).sum
        = (ids.map (fun i =>
            (if k = i then 1 else 0) + (List.filter (fun x => x == i) ks).length)).sum := by
      congr 1
      apply List.map_congr_left
      intro i _
      rw [List.filter_cons]
      by_cases h : k = i
      · rw [if_pos (by simpa using h), if_pos h, List.length_cons]; omega
      · rw [if_neg (by simpa using h), if_neg h]; omega
    rw [hsplit, sum_map_add, sum_indicator_eq_one ids k hnd (hcov k (List.mem_cons_self k ks)),
      ih (fun x hx => hcov x (List.mem_cons_of_mem _ hx)), List.length_cons]
    omega

namespace Server

/-! Facts about `setFirstElection` and the key-preserving candidate
map. -/

theorem length_setFirstElection (eid : Nat) (g : SElection → SElection)
    (l : List SElection) : (setFirstElection eid g l).length = l.length := by
  induction l with
  | nil => rfl
  | cons e es ih =>
    unfold setFirstElection
    split
    · rfl
    · simp [ih]

theorem map_electionId_setFirstElection (eid : Nat) (g : SElection → SElection)
    (hg : ∀ e, (g e).electionId = e.electionId) (l : List SElection) :
    (setFirstElection eid g l).map (·.electionId) = l.map (·.electionId) := by
  induction l with
  | nil => rfl
  | cons e es ih =>
    unfold setFirstElection
    split
    · simp [hg]
    · simp [ih]

theorem setFirstElection_eq_map (eid : Nat) (g : SElection → SElection) (l : List SElection)
    (hnd : (l.map (·.electionId)).Nodup) :
    setFirstElection eid g l = l.map (fun e => if e.electionId == eid then g e else e) := by
  induction l with
  | nil => rfl
  | cons e es ih =>
    rw [List.map_cons] at hnd
    unfold setFirstElection
    split
    · next h =>
      rw [List.map_cons, if_pos h]
      congr 1
      have he : e.electionId = eid := by simpa using h
      have : ∀ x ∈ es, (if x.electionId == eid then g x else x) = x := by
        intro x hx
        rw [if_neg]
        intro hxe
        have : x.electionId = e.electionId := by
          rw [he]; simpa using hxe
        exact (List.nodup_cons.mp hnd).1 (this ▸ List.mem_map_of_mem (·.electionId) hx)
      exact ((List.map_congr_left this).trans (List.map_id es)).symm
    · next h =>
      rw [List.map_cons, if_neg h]
      rw [ih (List.nodup_cons.mp hnd).2]

theorem mem_map_of_setFirstElection (eid : Nat) (g : SElection → SElection)
    (hg : ∀ e, (g e).electionId = e.electionId) (l : List SElection) (x : Nat)
    (hx : x ∈ l.map (·.electionId)) : x ∈ (setFirstElection eid g l).map (·.electionId) := by
  rw [map_electionId_setFirstElection eid g hg l]
  exact hx

theorem filter_map_candidateId (f : SCandidate → SCandidate)
    (hf1 : ∀ c, (f c).electionId = c.electionId)
    (hf2 : ∀ c, (f c).candidateId = c.candidateId) (l : List SCandidate) (eid : Nat) :
    ((l.map f).filter (fun c => c.electionId == eid)).map (·.candidateId) =
      (l.filter (fun c => c.electionId == eid)).map (·.candidateId) := by
  rw [List.filter_map, List.map_map]
  have h1 : (l.filter ((fun c => c.electionId == eid) ∘ f)) =
      l.filter (fun c => c.electionId == eid) := by
    apply List.filter_congr
    intro c _
    simp [Function.comp, hf1]
  rw [h1]
  apply List.map_congr_left
  intro c _
  simp [Function.comp, hf2]

/-! Counting votes before and after an append. -/

theorem countVotes_append_other (votes : List SVote) (v : SVote) (eid cid : Nat)
    (h : ¬(v.electionId = eid ∧ v.candidateId = cid)) :
    countVotes (votes ++ [v]) eid cid = countVotes votes eid cid := by
  unfold countVotes
  rw [List.filter_append]
  have : List.filter (fun w => w.electionId == eid && w.candidateId == cid) [v] = [] := by
    simp only [List.filter_cons, List.filter_nil]
    rw [if_neg]
    simp only [Bool.and_eq_true, beq_iff_eq]
    exact h
  rw [this, List.append_nil]

theorem countVotes_append_self (votes : List SVote) (v : SVote) (eid cid : Nat)
    (h : v.electionId = eid ∧ v.candidateId = cid) :
    countVotes (votes ++ [v]) eid cid = countVotes votes eid cid + 1 := by
  unfold countVotes
  rw [List.filter_append]
  have : List.filter (fun w => w.electionId == eid && w.candidateId == cid) [v] = [v] := by
    simp only [List.filter_cons, List.filter_nil]
    rw [if_pos]
    simp only [Bool.and_eq_true, beq_iff_eq]
    exact h
  rw [this, List.length_append, List.length_cons, List.length_nil]

theorem countElectionVotes_append_other (votes : List SVote) (v : SVote) (eid : Nat)
    (h : v.electionId ≠ eid) :
    countElectionVotes (votes ++ [v]) eid = countElectionVotes votes eid := by
  unfold countElectionVotes
  rw [List.filter_append]
  have : List.filter (fun w => w.electionId == eid) [v] = [] := by
    simp only [List.filter_cons, List.filter_nil]
    rw [if_neg]
    simpa using h
  rw [this, List.append_nil]

/-! Preservation of the inductive invariant by every operation. -/

theorem sinv_logAudit (now a u det st e : String) (s : SDB) (h : SInv s) :
    SInv (logAudit now a u det st e s) := by
  unfold SInv at h ⊢
  simpa using h

theorem sinv_updateStats (now : String) (s : SDB) (h : SInv s) :
    SInv (updateStats now s) := by
  unfold SInv at h ⊢
  simpa using h

theorem sinv_sFail (now a u e : String) (s : SDB) (h : SInv s) :
    SInv (sFail now a u e s).2 := by
  rw [sFail_snd]
  exact sinv_logAudit now a u "request" "error" e s h

theorem sinv_logBlockchain (now a det : String) (s : SDB) (h : SInv s) :
    SInv (logBlockchain now a det s) := by
  unfold SInv at h ⊢
  obtain ⟨h1, h2, h3, h4, h5, h6, h7, h8⟩ := h
  refine ⟨by simpa using h1, by simpa using h2, by simpa using h3, by simpa using h4,
    by simpa using h5, by simpa using h6, by simpa using h7, ?_⟩
  rw [blockchain_logBlockchain, List.map_append, h8]
  simp [List.range_succ]

theorem range'_one_concat (n : Nat) :
    List.range' 1 (n + 1) = List.range' 1 n ++ [n + 1] := by
  have := @List.range'_concat 1 1 n
  simpa [Nat.add_comm] using this

theorem mem_range'_le {x n : Nat} (h : x ∈ List.range' 1 n) : 1 ≤ x ∧ x ≤ n := by
  rw [List.mem_range'_1] at h
  omega

theorem sinv_registerVoter (d : RegisterData) (now : String) (s : SDB) (h : SInv s) :
    SInv (registerVoter d now s).2 := by
  unfold registerVoter
  split_ifs with c1 c2 c3
  all_goals try (exact sinv_sFail _ _ _ _ _ h)
  apply sinv_updateStats
  apply sinv_logAudit
  apply sinv_logBlockchain
  unfold SInv at h ⊢
  simpa using h

theorem sinv_createElection (cfg : SConfig) (d : ElectionData) (now : String) (s : SDB)
    (h : SInv s) : SInv (createElection cfg d now s).2 := by
  unfold createElection
  split_ifs with c1 c2
  all_goals try (exact sinv_sFail _ _ _ _ _ h)
  · apply sinv_updateStats
    apply sinv_logAudit
    apply sinv_logBlockchain
    obtain ⟨h1, h2, h3, h4, h5, h6, h7, h8⟩ := h
    have hvote_eid : ∀ v ∈ s.votes, v.electionId ∈ s.elections.map (·.electionId) := by
      intro v hv
      obtain ⟨c, hc, hce, _⟩ := h4 v hv
      obtain ⟨e, he, hee⟩ := h3 c hc
      rw [← hce, ← hee]
      exact List.mem_map_of_mem (·.electionId) he
    refine ⟨?_, h2, ?_, h4, h5, ?_, ?_, h8⟩
    · simp only [List.map_append, List.length_append, h1, List.map_cons, List.map_nil,
        List.length_cons, List.length_nil]
      simp [range'_one_concat]
    · intro c hc
      obtain ⟨e, he, hee⟩ := h3 c hc
      exact ⟨e, List.mem_append_left _ he, hee⟩
    · intro e' he'
      rcases List.mem_append.mp he' with hin | hin
      · exact h6 e' hin
      · have : e' = ⟨s.elections.length + 1, jsTrim d.title, jsTrim d.description,
            d.startDate, d.endDate, "Activa", 0, now, cfg.votingContractAddress⟩ := by
          simpa using hin
        subst this
        show (0 : Nat) = countElectionVotes s.votes (s.elections.length + 1)
        unfold countElectionVotes
        have : s.votes.filter (fun v => v.electionId == s.elections.length + 1) = [] := by
          rw [List.filter_eq_nil_iff]
          intro v hv
          have := hvote_eid v hv
          rw [h1] at this
          have := mem_range'_le this
          simp only [beq_iff_eq]
          omega
        rw [this]
        rfl
    · intro e' he'
      rcases List.mem_append.mp he' with hin | hin
      · exact h7 e' hin
      · have : e' = ⟨s.elections.length + 1, jsTrim d.title, jsTrim d.description,
            d.startDate, d.endDate, "Activa", 0, now, cfg.votingContractAddress⟩ := by
          simpa using hin
        subst this
        rfl

theorem sinv_addCandidate (d : CandidateData) (now : String) (s : SDB) (h : SInv s) :
    SInv (addCandidate d now s).2 := by
  unfold addCandidate
  split_ifs with c1 c2
  all_goals try (exact sinv_sFail _ _ _ _ _ h)
  · apply sinv_logAudit
    apply sinv_logBlockchain
    obtain ⟨h1, h2, h3, h4, h5, h6, h7, h8⟩ := h
    have hcand : ∃ e ∈ s.elections, e.electionId = d.electionId := by
      obtain ⟨e, he, hee⟩ := List.any_eq_true.mp c2
      exact ⟨e, he, by simpa using hee⟩
    refine ⟨h1, ?_, ?_, ?_, ?_, h6, h7, h8⟩
    · intro eid'
      dsimp only
      rw [List.filter_append]
      by_cases heq : d.electionId = eid'
      · subst heq
        have hnew : List.filter (fun c => c.electionId == d.electionId)
            [(⟨d.electionId, (s.candidates.filter
                (fun c => c.electionId == d.electionId)).length + 1,
              jsTrim d.name, jsTrim d.party, 0, "0%", now⟩ : SCandidate)] =
            [⟨d.electionId, (s.candidates.filter
                (fun c => c.electionId == d.electionId)).length + 1,
              jsTrim d.name, jsTrim d.party, 0, "0%", now⟩] := by
          simp
        rw [hnew, List.map_append, h2 d.electionId, List.length_append]
        simp [range'_one_concat]
      · have hnew : List.filter (fun c => c.electionId == eid')
            [(⟨d.electionId, (s.candidates.filter
                (fun c => c.electionId == d.electionId)).length + 1,
              jsTrim d.name, jsTrim d.party, 0, "0%", now⟩ : SCandidate)] = [] := by
          simp [heq]
        rw [hnew, List.append_nil]
        exact h2 eid'
    · intro c hc
      rcases List.mem_append.mp hc with hin | hin
      · obtain ⟨e, he, hee⟩ := h3 c hin
        exact ⟨e, he, hee⟩
      · obtain ⟨e, he, hee⟩ := hcand
        have : c.electionId = d.electionId := by
          have : c = ⟨d.electionId, (s.candidates.filter
              (fun c => c.electionId == d.electionId)).length + 1,
            jsTrim d.name, jsTrim d.party, 0, "0%", now⟩ := by simpa using hin
          rw [this]
        exact ⟨e, he, by rw [hee, this]⟩
    · intro v hv
      obtain ⟨c, hc, hk⟩ := h4 v hv
      exact ⟨c, List.mem_append_left _ hc, hk⟩
    · intro c hc
      rcases List.mem_append.mp hc with hin | hin
      · exact h5 c hin
      · have hceq : c = ⟨d.electionId, (s.candidates.filter
            (fun c => c.electionId == d.electionId)).length + 1,
          jsTrim d.name, jsTrim d.party, 0, "0%", now⟩ := by simpa using hin
        subst hceq
        show (0 : Nat) = countVotes s.votes d.electionId _
        unfold countVotes
        have : s.votes.filter (fun v => v.electionId == d.electionId &&
            v.candidateId == (s.candidates.filter
              (fun c => c.electionId == d.electionId)).length + 1) = [] := by
          rw [List.filter_eq_nil_iff]
          intro v hv
          simp only [Bool.and_eq_true, beq_iff_eq, not_and]
          intro hve
          obtain ⟨c', hc', hce', hcc'⟩ := h4 v hv
          have hmem : c' ∈ s.candidates.filter (fun c => c.electionId == d.electionId) := by
            rw [List.mem_filter]
            exact ⟨hc', by simp [hce', hve]⟩
          have : c'.candidateId ∈ (s.candidates.filter
              (fun c => c.electionId == d.electionId)).map (·.candidateId) :=
            List.mem_map_of_mem (·.candidateId) hmem
          rw [h2 d.electionId] at this
          have := mem_range'_le this
          omega
        rw [this]
        rfl

/-- Appending a vote that references an existing election-scoped
candidate and then running both tally updates preserves the
invariant. -/
theorem sinv_tally_after_append (s : SDB) (v : SVote) (h : SInv s)
    (hcand : ∃ c ∈ s.candidates,
      c.electionId = v.electionId ∧ c.candidateId = v.candidateId) :
    SInv (updateElectionTotalVotes v.electionId
      (updateCandidateVotes v.electionId { s with votes := s.votes ++ [v] })) := by
  obtain ⟨h1, h2, h3, h4, h5, h6, h7, h8⟩ := h
  have hnd : (s.elections.map (·.electionId)).Nodup := by
    rw [h1]
    apply List.nodup_range'
    omega
  refine ⟨?_, ?_, ?_, ?_, ?_, ?_, ?_, ?_⟩
  · simp only [elections_updateElectionTotalVotes, elections_updateCandidateVotes,
      length_setFirstElection]
    rw [map_electionId_setFirstElection _ _ (by intro e; rfl)]
    exact h1
  · intro eid'
    simp only [candidates_updateElectionTotalVotes, candidates_updateCandidateVotes]
    have key := filter_map_candidateId
      (fun c => if c.electionId == v.electionId then
        { c with
          votes := countVotes (s.votes ++ [v]) v.electionId c.candidateId,
          percentage := pctString (countVotes (s.votes ++ [v]) v.electionId c.candidateId)
            (countElectionVotes (s.votes ++ [v]) v.electionId) }
      else c)
      (by intro c; dsimp only; split <;> rfl)
      (by intro c; dsimp only; split <;> rfl) s.candidates eid'
    rw [key]
    have hlen : ∀ (l₁ l₂ : List SCandidate),
        l₁.map (·.candidateId) = l₂.map (·.candidateId) → l₁.length = l₂.length := by
      intro l₁ l₂ hmap
      have := congrArg List.length hmap
      simpa using this
    rw [hlen _ _ key, h2 eid']
  · intro c' hc'
    simp only [candidates_updateElectionTotalVotes, candidates_updateCandidateVotes] at hc'
    obtain ⟨c, hc, rfl⟩ := List.mem_map.mp hc'
    obtain ⟨e, he, hee⟩ := h3 c hc
    have hmem : e.electionId ∈ (updateElectionTotalVotes v.electionId
        (updateCandidateVotes v.electionId
          { s with votes := s.votes ++ [v] })).elections.map (·.electionId) := by
      simp only [elections_updateElectionTotalVotes, elections_updateCandidateVotes]
      rw [map_electionId_setFirstElection _ _ (by intro e; rfl)]
      exact List.mem_map_of_mem (·.electionId) he
    obtain ⟨e', he', hee'⟩ := List.mem_map.mp hmem
    refine ⟨e', he', ?_⟩
    rw [hee', hee]
    split <;> rfl
  · intro v' hv'
    have hv2 : v' ∈ s.votes ++ [v] := hv'
    rcases List.mem_append.mp hv2 with hin | hin
    · obtain ⟨c, hc, hce, hcc⟩ := h4 v' hin
      refine ⟨(fun c => if c.electionId == v.electionId then
          { c with
            votes := countVotes (s.votes ++ [v]) v.electionId c.candidateId,
            percentage := pctString (countVotes (s.votes ++ [v]) v.electionId c.candidateId)
              (countElectionVotes (s.votes ++ [v]) v.electionId) }
        else c) c, List.mem_map_of_mem _ hc, ?_, ?_⟩
      · dsimp only; split <;> simpa using hce
      · dsimp only; split <;> simpa using hcc
    · obtain ⟨c, hc, hce, hcc⟩ := hcand
      have hveq : v' = v := by simpa using hin
      subst hveq
      refine ⟨(fun c => if c.electionId == v'.electionId then
          { c with
            votes := countVotes (s.votes ++ [v']) v'.electionId c.candidateId,
            percentage := pctString (countVotes (s.votes ++ [v']) v'.electionId c.candidateId)
              (countElectionVotes (s.votes ++ [v']) v'.electionId) }
        else c) c, List.mem_map_of_mem _ hc, ?_, ?_⟩
      · dsimp only; split <;> simpa using hce
      · dsimp only; split <;> simpa using hcc
  · intro c' hc'
    simp only [candidates_updateElectionTotalVotes, candidates_updateCandidateVotes] at hc' ⊢
    simp only [votes_updateElectionTotalVotes, votes_updateCandidateVotes]
    obtain ⟨c, hc, rfl⟩ := List.mem_map.mp hc'
    by_cases hm : (c.electionId == v.electionId) = true
    · rw [if_pos hm]
      have hce : c.electionId = v.electionId := by simpa using hm
      rw [hce]
    · rw [if_neg hm]
      have hce : c.electionId ≠ v.electionId := by simpa using hm
      rw [h5 c hc]
      rw [countVotes_append_other]
      intro ⟨ha, _⟩
      exact hce ha.symm
  · intro e' he'
    simp only [elections_updateElectionTotalVotes, elections_updateCandidateVotes,
      votes_updateElectionTotalVotes, votes_updateCandidateVotes] at he' ⊢
    rw [setFirstElection_eq_map _ _ _ hnd] at he'
    obtain ⟨e, he, rfl⟩ := List.mem_map.mp he'
    by_cases hm : (e.electionId == v.electionId) = true
    · rw [if_pos hm]
      have hee : e.electionId = v.electionId := by simpa using hm
      rw [hee]
    · rw [if_neg hm]
      have hee : e.electionId ≠ v.electionId := by simpa using hm
      rw [h6 e he]
      rw [countElectionVotes_append_other]
      exact fun ha => hee ha.symm
  · intro e' he'
    simp only [elections_updateElectionTotalVotes, elections_updateCandidateVotes] at he'
    rw [setFirstElection_eq_map _ _ _ hnd] at he'
    obtain ⟨e, he, rfl⟩ := List.mem_map.mp he'
    have := h7 e he
    split <;> simpa using this
  · simp only [blockchain_updateElectionTotalVotes, blockchain_updateCandidateVotes]
    exact h8

theorem sinv_recordVote (d : VoteData) (now : String) (s : SDB) (h : SInv s) :
    SInv (recordVote d now s).2 := by
  unfold recordVote
  split_ifs with c1 c2 c3
  all_goals try (exact sinv_sFail _ _ _ _ _ h)
  apply sinv_updateStats
  apply sinv_logAudit
  apply sinv_logBlockchain
  have hcand : ∃ c ∈ s.candidates,
      c.electionId = d.electionId ∧ c.candidateId = d.candidateId := by
    obtain ⟨c, hc, hcc⟩ := List.any_eq_true.mp c3
    simp only [Bool.and_eq_true, beq_iff_eq] at hcc
    exact ⟨c, hc, hcc⟩
  exact sinv_tally_after_append s
    ⟨d.txHash, normWallet d.walletAddress, d.electionId, d.candidateId, now,
      d.blockNumber, d.gasUsed, "Confirmado"⟩ h hcand

theorem sinv_sstep (cfg : SConfig) (r : SReq) (s : SDB) (h : SInv s) :
    SInv (sstep cfg r s).2 := by
  cases r with
  | registerVoter d now => exact sinv_registerVoter d now s h
  | createElection d now => exact sinv_createElection cfg d now s h
  | addCandidate d now => exact sinv_addCandidate d now s h
  | castVote d now => exact sinv_recordVote d now s h

theorem sinv_srun (cfg : SConfig) (rs : List SReq) (s : SDB) (h : SInv s) :
    SInv (srun cfg rs s) := by
  induction rs generalizing s with
  | nil => exact h
  | cons r rs ih => exact ih (sstep cfg r s).2 (sinv_sstep cfg r s h)

theorem sinv_init (t : String) : SInv (initDB t) := by
  refine ⟨rfl, fun eid => rfl, ?_, ?_, ?_, ?_, ?_, rfl⟩ <;> intro x hx <;> cases hx

theorem sinv_reachable (cfg : SConfig) (s : SDB) (h : SReachable cfg s) : SInv s := by
  obtain ⟨t, rs, rfl⟩ := h
  exact sinv_srun cfg rs (initDB t) (sinv_init t)

/-! Tally bookkeeping: the per-candidate counts, re-keyed through the
candidate ids. -/

theorem countVotes_as_keyed (votes : List SVote) (eid cid : Nat) :
    countVotes votes eid cid =
      (((votes.filter (fun v => v.electionId == eid)).map (·.candidateId)).filter
        (fun k => k == cid)).length := by
  unfold countVotes
  have e1 : votes.filter (fun v => v.electionId == eid && v.candidateId == cid)
      = (votes.filter (fun v => v.electionId == eid)).filter
          (fun v => v.candidateId == cid) := by
    rw [List.filter_filter]
    apply List.filter_congr
    intro v _
    exact Bool.and_comm _ _
  rw [e1, ← List.countP_eq_length_filter, ← List.countP_eq_length_filter,
    List.countP_map]
  rfl

theorem sum_votes_eq_count (s : SDB) (eid : Nat)
    (h2 : (s.candidates.filter (fun c => c.electionId == eid)).map (·.candidateId)
      = List.range' 1 ((s.candidates.filter (fun c => c.electionId == eid)).length))
    (h4 : ∀ v ∈ s.votes, ∃ c ∈ s.candidates,
      c.electionId = v.electionId ∧ c.candidateId = v.candidateId)
    (h5 : ∀ c ∈ s.candidates, c.votes = countVotes s.votes c.electionId c.candidateId) :
    sumCandidateVotes s eid = countElectionVotes s.votes eid := by
  unfold sumCandidateVotes
  have step1 : (s.candidates.filter (fun c => c.electionId == eid)).map (·.votes)
      = ((s.candidates.filter (fun c => c.electionId == eid)).map (·.candidateId)).map
          (fun i => (((s.votes.filter (fun v => v.electionId == eid)).map
            (·.candidateId)).filter (fun k => k == i)).length) := by
    rw [List.map_map]
    apply List.map_congr_left
    intro c hc
    have hmem := List.mem_filter.mp hc
    have hce : c.electionId = eid := by simpa using hmem.2
    have := h5 c hmem.1
    rw [hce] at this
    rw [this]
    exact countVotes_as_keyed s.votes eid c.candidateId
  rw [step1]
  have hnd : ((s.candidates.filter (fun c => c.electionId == eid)).map
      (·.candidateId)).Nodup := by
    rw [h2]
    apply List.nodup_range'
    omega
  have hcov : ∀ k ∈ (s.votes.filter (fun v => v.electionId == eid)).map (·.candidateId),
      k ∈ (s.candidates.filter (fun c => c.electionId == eid)).map (·.candidateId) := by
    intro k hk
    obtain ⟨v, hv, rfl⟩ := List.mem_map.mp hk
    have hvm := List.mem_filter.mp hv
    have hve : v.electionId = eid := by simpa using hvm.2
    obtain ⟨c, hc, hce, hcc⟩ := h4 v hvm.1
    have hcf : c ∈ s.candidates.filter (fun c => c.electionId == eid) := by
      rw [List.mem_filter]
      exact ⟨hc, by simp [hce, hve]⟩
    rw [← hcc]
    exact List.mem_map_of_mem (·.candidateId) hcf
  rw [sum_filter_length _ _ hnd hcov]
  unfold countElectionVotes
  rw [List.length_map]

/-! Further branch characterizations used by the claims below. -/

theorem recordVote_success_cand (d : VoteData) (now : String) (s : SDB)
    (h : (recordVote d now s).1.success = true) :
    (s.candidates.any fun c =>
      c.electionId == d.electionId && c.candidateId == d.candidateId) = true := by
  unfold recordVote at h
  split_ifs at h with c1 c2 c3 <;> try simp at h
  exact c3

theorem recordVote_no_candidate (d : VoteData) (now : String) (s : SDB)
    (hw : normWallet d.walletAddress ≠ "") (he : d.electionId ≠ 0) (hc : d.candidateId ≠ 0)
    (hv : hasVoted s (normWallet d.walletAddress) d.electionId = false)
    (hcand : (s.candidates.any fun c =>
      c.electionId == d.electionId && c.candidateId == d.candidateId) = false) :
    (recordVote d now s).1.success = false ∧
    (recordVote d now s).1.error = "Candidato no encontrado" ∧
    (recordVote d now s).2.votes = s.votes := by
  unfold recordVote
  rw [if_neg (by simp [hw, he, hc]), if_neg (by simp [hv]), if_pos (by simp [hcand])]
  exact ⟨rfl, rfl, rfl⟩

theorem addCandidate_success_parts (d : CandidateData) (now : String) (s : SDB)
    (h : (addCandidate d now s).1.success = true) :
    (addCandidate d now s).1.retId =
      (s.candidates.filter (fun c => c.electionId == d.electionId)).length + 1 ∧
    (addCandidate d now s).2.candidates = s.candidates ++
      [⟨d.electionId,
        (s.candidates.filter (fun c => c.electionId == d.electionId)).length + 1,
        jsTrim d.name, jsTrim d.party, 0, "0%", now⟩] := by
  unfold addCandidate at h ⊢
  split_ifs at h ⊢ <;> try simp at h
  exact ⟨rfl, by simp⟩

theorem audit_len_registerVoter (d : RegisterData) (now : String) (s : SDB) :
    (registerVoter d now s).2.audit.length = s.audit.length + 1 := by
  unfold registerVoter
  split_ifs <;> simp [sFail_snd]

theorem audit_len_createElection (cfg : SConfig) (d : ElectionData) (now : String)
    (s : SDB) : (createElection cfg d now s).2.audit.length = s.audit.length + 1 := by
  unfold createElection
  split_ifs <;> simp [sFail_snd]

theorem audit_len_addCandidate (d : CandidateData) (now : String) (s : SDB) :
    (addCandidate d now s).2.audit.length = s.audit.length + 1 := by
  unfold addCandidate
  split_ifs <;> simp [sFail_snd]

theorem audit_len_recordVote (d : VoteData) (now : String) (s : SDB) :
    (recordVote d now s).2.audit.length = s.audit.length + 1 := by
  unfold recordVote
  split_ifs <;> simp [sFail_snd]

/-! The tally recomputation is idempotent and a function of the vote
ledger and the candidate/election key structure alone. -/

theorem SDB_ext (a b : SDB) (h1 : a.voters = b.voters) (h2 : a.elections = b.elections)
    (h3 : a.candidates = b.candidates) (h4 : a.votes = b.votes)
    (h5 : a.blockchain = b.blockchain) (h6 : a.audit = b.audit) (h7 : a.stats = b.stats)
    (h8 : a.relayerLog = b.relayerLog) : a = b := by
  cases a
  cases b
  simp_all

theorem setFirstElection_cons_pos (eid : Nat) (g : SElection → SElection)
    (e : SElection) (es : List SElection) (hm : (e.electionId == eid) = true) :
    setFirstElection eid g (e :: es) = g e :: es := by
  simp only [setFirstElection]
  rw [if_pos hm]

theorem setFirstElection_cons_neg (eid : Nat) (g : SElection → SElection)
    (e : SElection) (es : List SElection) (hm : ¬(e.electionId == eid) = true) :
    setFirstElection eid g (e :: es) = e :: setFirstElection eid g es := by
  simp only [setFirstElection]
  rw [if_neg hm]

theorem setFirstElection_comp_self (eid : Nat) (g : SElection → SElection)
    (hg : ∀ e, (g e).electionId = e.electionId) (hgg : ∀ e, g (g e) = g e)
    (l : List SElection) :
    setFirstElection eid g (setFirstElection eid g l) = setFirstElection eid g l := by
  induction l with
  | nil => rfl
  | cons e es ih =>
    by_cases hm : (e.electionId == eid) = true
    · rw [setFirstElection_cons_pos eid g e es hm,
        setFirstElection_cons_pos eid g (g e) es (by rw [hg]; exact hm), hgg]
    · rw [setFirstElection_cons_neg eid g e es hm,
        setFirstElection_cons_neg eid g e _ hm, ih]

theorem tallyRecompute_votes (eid : Nat) (s : SDB) :
    (tallyRecompute eid s).votes = s.votes := rfl

theorem tallyRecompute_idem (eid : Nat) (s : SDB) :
    tallyRecompute eid (tallyRecompute eid s) = tallyRecompute eid s := by
  apply SDB_ext
  · rfl
  · show setFirstElection eid
      (fun e => { e with totalVotes := countElectionVotes s.votes eid })
      (setFirstElection eid
        (fun e => { e with totalVotes := countElectionVotes s.votes eid }) s.elections) =
      setFirstElection eid
        (fun e => { e with totalVotes := countElectionVotes s.votes eid }) s.elections
    exact setFirstElection_comp_self eid _ (by intro e; rfl) (by intro e; rfl) s.elections
  · show ((s.candidates.map (fun (c : SCandidate) =>
        if c.electionId == eid then
          { c with votes := countVotes s.votes eid c.candidateId,
                   percentage := pctString (countVotes s.votes eid c.candidateId)
                     (countElectionVotes s.votes eid) }
        else c)).map (fun (c : SCandidate) =>
        if c.electionId == eid then
          { c with votes := countVotes s.votes eid c.candidateId,
                   percentage := pctString (countVotes s.votes eid c.candidateId)
                     (countElectionVotes s.votes eid) }
        else c)) =
      s.candidates.map (fun (c : SCandidate) =>
        if c.electionId == eid then
          { c with votes := countVotes s.votes eid c.candidateId,
                   percentage := pctString (countVotes s.votes eid c.candidateId)
                     (countElectionVotes s.votes eid) }
        else c)
    rw [List.map_map]
    apply List.map_congr_left
    intro c _
    by_cases hm : (c.electionId == eid) = true
    · simp only [Function.comp]
      rw [if_pos hm]
      rw [if_pos (by simpa using hm)]
    · simp only [Function.comp]
      rw [if_neg hm, if_neg hm]
  · rfl
  · rfl
  · rfl
  · rfl
  · rfl

theorem tallyRecompute_candidates_repr (eid : Nat) (s : SDB) :
    ((tallyRecompute eid s).candidates.filter (fun c => c.electionId == eid)).map
        (fun c => (c.candidateId, c.votes, c.percentage)) =
      ((s.candidates.filter (fun c => c.electionId == eid)).map (·.candidateId)).map
        (fun i => (i, countVotes s.votes eid i,
          pctString (countVotes s.votes eid i) (countElectionVotes s.votes eid))) := by
  have hcands : (tallyRecompute eid s).candidates =
      s.candidates.map (fun (c : SCandidate) =>
        if c.electionId == eid then
          { c with votes := countVotes s.votes eid c.candidateId,
                   percentage := pctString (countVotes s.votes eid c.candidateId)
                     (countElectionVotes s.votes eid) }
        else c) := rfl
  rw [hcands, List.filter_map, List.map_map, List.map_map]
  have hfe : (s.candidates.filter ((fun c => c.electionId == eid) ∘
      (fun (c : SCandidate) =>
        if c.electionId == eid then
          { c with votes := countVotes s.votes eid c.candidateId,
                   percentage := pctString (countVotes s.votes eid c.candidateId)
                     (countElectionVotes s.votes eid) }
        else c))) =
      s.candidates.filter (fun c => c.electionId == eid) := by
    apply List.filter_congr
    intro c _
    simp only [Function.comp]
    split <;> rfl
  rw [hfe]
  apply List.map_congr_left
  intro c hc
  have hm : (c.electionId == eid) = true := by
    have := (List.mem_filter.mp hc).2
    simpa using this
  simp only [Function.comp]
  rw [if_pos hm]

theorem tallyRecompute_total (eid : Nat) (s : SDB)
    (hnd : (s.elections.map (·.electionId)).Nodup) :
    ∀ e ∈ (tallyRecompute eid s).elections, e.electionId = eid →
      e.totalVotes = countElectionVotes s.votes eid := by
  intro e' he' heid
  have : (tallyRecompute eid s).elections = setFirstElection eid
      (fun e => { e with totalVotes := countElectionVotes s.votes eid }) s.elections := rfl
  rw [this, setFirstElection_eq_map _ _ _ hnd] at he'
  obtain ⟨e, he, rfl⟩ := List.mem_map.mp he'
  by_cases hm : (e.electionId == eid) = true
  · rw [if_pos hm]
  · rw [if_neg hm] at heid ⊢
    exact absurd heid (by simpa using hm)

end Server

/-- C2 as frozen is refuted in `backend.js`: a successful cast for a
nonexistent candidate appends a vote and bumps the election total but no
candidate counter, so the candidate-votes sum (0) differs from both the
cached total (1) and the ledger count (1). -/
theorem c2_counterexample :
    (Backend.castVote ⟨"0xaa", 1, 2⟩ "t3"
      (Backend.addCandidate ⟨1, "A", ""⟩ "t2"
        (Backend.createElection ⟨"E1", "", none, none⟩ "t1"
          Backend.initBDB).2).2).1.success = true ∧
    Backend.sumCandidateVotesB demoB5 1 = 0 ∧
    (demoB5.votes.filter (fun v => v.ElectionID == 1)).length = 1 ∧
    demoB5.elections.map (·.TotalVotes) = [1] ∧
    Backend.sumCandidateVotesB demoB5 1 ≠
      (demoB5.votes.filter (fun v => v.ElectionID == 1)).length := by
  decide

/-- C2, amended — tally consistency holds in `server.js`: in every
reachable state (so after any sequence of successful casts), for every
election the sum of the cached candidate `votes` equals the cached
`totalVotes`, and both equal the ledger count of that election's votes;
each candidate's cached `votes` equals the ledger count for its
`(electionId, candidateId)` pair.  In `backend.js` the counters are
incremented rather than recomputed and the invariant can break (see the
counterexample). -/
theorem c2_tally_consistency (cfg : Server.SConfig) (s : Server.SDB)
    (hr : Server.SReachable cfg s) :
    (∀ e ∈ s.elections,
      Voting.Server.sumCandidateVotes s e.electionId = e.totalVotes ∧
      e.totalVotes = Server.countElectionVotes s.votes e.electionId) ∧
    (∀ c ∈ s.candidates,
      c.votes = Server.countVotes s.votes c.electionId c.candidateId) := by
  obtain ⟨h1, h2, h3, h4, h5, h6, h7, h8⟩ := Server.sinv_reachable cfg s hr
  refine ⟨?_, h5⟩
  intro e he
  refine ⟨?_, h6 e he⟩
  rw [Server.sum_votes_eq_count s e.electionId (h2 e.electionId) h4 h5]
  exact (h6 e he).symm

/-- Witness for the amended C2: the invariant instantiated at the
concrete post-vote state of the §8 scenario. -/
theorem c2_tally_consistency_witness :
    Voting.Server.sumCandidateVotes demoS4 1 = 1 ∧
    demoS4.elections.map (·.totalVotes) = [1] ∧
    Server.countElectionVotes demoS4.votes 1 = 1 ∧
    demoS4.candidates.map (·.votes) = [1, 0] := by
  have h := c2_tally_consistency demoCfg demoS4
    ⟨"t0", [Server.SReq.createElection ⟨"0xAdmin", "E1", "", none, some 0⟩ "t1",
      Server.SReq.addCandidate ⟨1, "Alice", ""⟩ "t2",
      Server.SReq.addCandidate ⟨1, "Bob", ""⟩ "t3",
      Server.SReq.castVote ⟨"", demoWallet, 1, 1, 0, 0⟩ "t4"], rfl⟩
  refine ⟨?_, by decide, by decide, by decide⟩
  have he : ∀ e ∈ demoS4.elections, Voting.Server.sumCandidateVotes demoS4 e.electionId
      = e.totalVotes := fun e he => (h.1 e he).1
  have := he (demoS4.elections.head (by decide)) (by decide)
  simpa using this

/-- C3 as frozen is refuted in `backend.js`: on the empty database —
no elections, no candidates — a cast succeeds and appends a vote. -/
theorem c3_counterexample :
    (Backend.castVote ⟨"0xaa", 1, 1⟩ "t" Backend.initBDB).1.success = true ∧
    (Backend.castVote ⟨"0xaa", 1, 1⟩ "t" Backend.initBDB).2.votes.length = 1 ∧
    Backend.initBDB.elections = [] ∧ Backend.initBDB.candidates = [] := by
  decide

/-- C3, amended — referential integrity holds in `server.js`: in any
reachable state, a cast whose election id matches no election, or whose
`(electionId, candidateId)` matches no candidate, fails and appends no
vote; when the request passes presence validation and the wallet has
not voted, the reported error is the candidate-not-found message (the
code never distinguishes a nonexistent election from a nonexistent
candidate on this path).  The `backend.js` handler instead appends such
votes (see the counterexample). -/
theorem c3_referential_integrity :
    (∀ (cfg : Server.SConfig) (s : Server.SDB) (d : Server.VoteData) (now : String),
        Server.SReachable cfg s →
        ((∀ e ∈ s.elections, e.electionId ≠ d.electionId) ∨
         (∀ c ∈ s.candidates,
           ¬(c.electionId = d.electionId ∧ c.candidateId = d.candidateId))) →
        (Server.recordVote d now s).1.success = false ∧
        (Server.recordVote d now s).2.votes = s.votes) ∧
    (∀ (d : Server.VoteData) (now : String) (s : Server.SDB),
        normWallet d.walletAddress ≠ "" → d.electionId ≠ 0 → d.candidateId ≠ 0 →
        Server.hasVoted s (normWallet d.walletAddress) d.electionId = false →
        (s.candidates.any fun c =>
          c.electionId == d.electionId && c.candidateId == d.candidateId) = false →
        (Server.recordVote d now s).1.success = false ∧
        (Server.recordVote d now s).1.error = "Candidato no encontrado" ∧
        (Server.recordVote d now s).2.votes = s.votes) := by
  constructor
  · intro cfg s d now hr hmiss
    obtain ⟨h1, h2, h3, h4, h5, h6, h7, h8⟩ := Server.sinv_reachable cfg s hr
    have hfail : (Server.recordVote d now s).1.success = false := by
      by_contra hne
      have hsucc : (Server.recordVote d now s).1.success = true := by
        cases hx : (Server.recordVote d now s).1.success
        · exact absurd hx hne
        · rfl
      have hany := Server.recordVote_success_cand d now s hsucc
      obtain ⟨c, hc, hcc⟩ := List.any_eq_true.mp hany
      simp only [Bool.and_eq_true, beq_iff_eq] at hcc
      rcases hmiss with hm | hm
      · obtain ⟨e, he, hee⟩ := h3 c hc
        exact hm e he (by rw [hee, hcc.1])
      · exact hm c hc hcc
    exact ⟨hfail, Server.recordVote_fail_votes d now s hfail⟩
  · intro d now s hw he hc hv hcand
    exact Server.recordVote_no_candidate d now s hw he hc hv hcand

/-- Witness for the amended C3: in the §8 state a cast for the
nonexistent candidate 3 of election 1, and a cast for the nonexistent
election 9, both fail and append nothing. -/
theorem c3_referential_integrity_witness :
    ((Server.recordVote ⟨"", "0xbbbbbbbbbbbbbbbbbbbbbbbbbbbbbbbbbbbbbbbb", 1, 3, 0, 0⟩
        "t5" demoS4).1.success = false ∧
     (Server.recordVote ⟨"", "0xbbbbbbbbbbbbbbbbbbbbbbbbbbbbbbbbbbbbbbbb", 1, 3, 0, 0⟩
        "t5" demoS4).2.votes = demoS4.votes) ∧
    ((Server.recordVote ⟨"", "0xbbbbbbbbbbbbbbbbbbbbbbbbbbbbbbbbbbbbbbbb", 9, 1, 0, 0⟩
        "t5" demoS4).1.success = false ∧
     (Server.recordVote ⟨"", "0xbbbbbbbbbbbbbbbbbbbbbbbbbbbbbbbbbbbbbbbb", 9, 1, 0, 0⟩
        "t5" demoS4).1.error = "Candidato no encontrado" ∧
     (Server.recordVote ⟨"", "0xbbbbbbbbbbbbbbbbbbbbbbbbbbbbbbbbbbbbbbbb", 9, 1, 0, 0⟩
        "t5" demoS4).2.votes = demoS4.votes) := by
  have h := c3_referential_integrity
  refine ⟨h.1 demoCfg demoS4 ⟨"", "0xbbbbbbbbbbbbbbbbbbbbbbbbbbbbbbbbbbbbbbbb", 1, 3, 0, 0⟩
      "t5" ⟨"t0", [Server.SReq.createElection ⟨"0xAdmin", "E1", "", none, some 0⟩ "t1",
        Server.SReq.addCandidate ⟨1, "Alice", ""⟩ "t2",
        Server.SReq.addCandidate ⟨1, "Bob", ""⟩ "t3",
        Server.SReq.castVote ⟨"", demoWallet, 1, 1, 0, 0⟩ "t4"], rfl⟩
      (Or.inr (by decide)),
    h.2 ⟨"", "0xbbbbbbbbbbbbbbbbbbbbbbbbbbbbbbbbbbbbbbbb", 9, 1, 0, 0⟩ "t5" demoS4
      (by decide) (by decide) (by decide) (by decide) (by decide)⟩

/-- C4 as frozen is refuted at one input: a failed registration (name
missing) appends an audit row but NO sequence-numbered entry — the only
sequence numbers in the store are the `blockNumber`s of the blockchain
log, which records successful mutations only, and the audit rows carry
no sequence field at all. -/
theorem c4_counterexample :
    (Server.registerVoter ⟨demoWallet, "", "9", ""⟩ "t1" (Server.initDB "t0")).1.success
      = false ∧
    (Server.registerVoter ⟨demoWallet, "", "9", ""⟩ "t1" (Server.initDB "t0")).2.audit.length
      = (Server.initDB "t0").audit.length + 1 ∧
    (Server.registerVoter ⟨demoWallet, "", "9", ""⟩ "t1" (Server.initDB "t0")).2.blockchain
      = (Server.initDB "t0").blockchain := by
  decide

/-- C4, amended — every mutating action, successful or failed, appends
exactly one audit row (timestamp, action, actor, details, outcome,
error), and the append is total — it never surfaces an error; but audit
rows carry no sequence number.  The sequence-numbered log is the
separate blockchain log: in every reachable state its `blockNumber`s
are exactly `0, 1, ..., m-1` — strictly increasing, gap-free and
independent of any other entity's identifiers — and it gains entries
only for successful mutations (plus the genesis block). -/
theorem c4_audit_and_chain :
    (∀ (cfg : Server.SConfig) (s : Server.SDB), Server.SReachable cfg s →
        s.blockchain.map (·.blockNumber) = List.range s.blockchain.length) ∧
    (∀ (cfg : Server.SConfig) (r : Server.SReq) (s : Server.SDB),
        (Server.sstep cfg r s).2.audit.length = s.audit.length + 1) := by
  constructor
  · intro cfg s hr
    exact (Server.sinv_reachable cfg s hr).2.2.2.2.2.2.2
  · intro cfg r s
    cases r with
    | registerVoter d now => exact Server.audit_len_registerVoter d now s
    | createElection d now => exact Server.audit_len_createElection cfg d now s
    | addCandidate d now => exact Server.audit_len_addCandidate d now s
    | castVote d now => exact Server.audit_len_recordVote d now s

/-- Witness for the amended C4: block numbering in the concrete §8
state, and the one-audit-row-per-action fact at a concrete failing
request. -/
theorem c4_audit_and_chain_witness :
    demoS4.blockchain.map (·.blockNumber) = List.range demoS4.blockchain.length ∧
    (Server.sstep demoCfg (Server.SReq.registerVoter ⟨demoWallet, "", "9", ""⟩ "t9")
      demoS4).2.audit.length = demoS4.audit.length + 1 := by
  have h := c4_audit_and_chain
  exact ⟨h.1 demoCfg demoS4
      ⟨"t0", [Server.SReq.createElection ⟨"0xAdmin", "E1", "", none, some 0⟩ "t1",
        Server.SReq.addCandidate ⟨1, "Alice", ""⟩ "t2",
        Server.SReq.addCandidate ⟨1, "Bob", ""⟩ "t3",
        Server.SReq.castVote ⟨"", demoWallet, 1, 1, 0, 0⟩ "t4"], rfl⟩,
    h.2 demoCfg (Server.SReq.registerVoter ⟨demoWallet, "", "9", ""⟩ "t9") demoS4⟩

/-- C6 as frozen is refuted in `backend.js`: with elections 1 and 2 and
one existing candidate (id 1, election 1), adding a candidate to
election 2 yields `CandidateID` 2 — `nextId` over ALL candidates — not
the per-election count plus one, which would be 1. -/
theorem c6_counterexample :
    (Backend.addCandidate ⟨2, "B", ""⟩ "t4" demoB3).1.success = true ∧
    (Backend.addCandidate ⟨2, "B", ""⟩ "t4" demoB3).1.retId = 2 ∧
    (demoB3.candidates.filter (fun c => c.ElectionID == 2)).length + 1 = 1 ∧
    (Backend.addCandidate ⟨2, "B", ""⟩ "t4" demoB3).1.retId ≠
      (demoB3.candidates.filter (fun c => c.ElectionID == 2)).length + 1 := by
  decide

/-- C6, amended — per-election numbering holds in `server.js`: a
successful `addCandidate` returns, and stores, a `candidateId` equal to
the count of the election's existing candidates plus one, so within
each election (in any reachable state) the candidate ids are exactly
`1..k` in insertion order — dense, unique per election, repeatable
across elections, and independent of the global candidate count.  The
`backend.js` handler instead assigns globally sequential ids (see the
counterexample). -/
theorem c6_candidate_numbering :
    (∀ (d : Server.CandidateData) (now : String) (s : Server.SDB),
        (Server.addCandidate d now s).1.success = true →
        (Server.addCandidate d now s).1.retId =
          (s.candidates.filter (fun c => c.electionId == d.electionId)).length + 1 ∧
        (Server.addCandidate d now s).2.candidates = s.candidates ++
          [⟨d.electionId,
            (s.candidates.filter (fun c => c.electionId == d.electionId)).length + 1,
            jsTrim d.name, jsTrim d.party, 0, "0%", now⟩]) ∧
    (∀ (cfg : Server.SConfig) (s : Server.SDB), Server.SReachable cfg s → ∀ eid,
        (s.candidates.filter (fun c => c.electionId == eid)).map (·.candidateId) =
          List.range' 1 ((s.candidates.filter (fun c => c.electionId == eid)).length)) :=
  ⟨Server.addCandidate_success_parts,
    fun cfg s hr => (Server.sinv_reachable cfg s hr).2.1⟩

/-- Witness for the amended C6: adding Carol to election 1 of the §8
state yields candidate id 3 (= 2 existing + 1), and the stored ids of
election 1 read `[1, 2]` beforehand. -/
theorem c6_candidate_numbering_witness :
    ((Server.addCandidate ⟨1, "Carol", ""⟩ "t9" demoS4).1.retId =
      (demoS4.candidates.filter (fun c => c.electionId == 1)).length + 1) ∧
    ((demoS4.candidates.filter (fun c => c.electionId == 1)).map (·.candidateId) =
      List.range' 1 ((demoS4.candidates.filter (fun c => c.electionId == 1)).length)) := by
  have h := c6_candidate_numbering
  exact ⟨(h.1 ⟨1, "Carol", ""⟩ "t9" demoS4 (by decide)).1,
    h.2 demoCfg demoS4
      ⟨"t0", [Server.SReq.createElection ⟨"0xAdmin", "E1", "", none, some 0⟩ "t1",
        Server.SReq.addCandidate ⟨1, "Alice", ""⟩ "t2",
        Server.SReq.addCandidate ⟨1, "Bob", ""⟩ "t3",
        Server.SReq.castVote ⟨"", demoWallet, 1, 1, 0, 0⟩ "t4"], rfl⟩ 1⟩

/-- C7 as frozen is refuted in `server.js`: an election whose `endAt`
is instant 0 is still returned by `getActiveElections` — the function
filters on `status === 'Activa'` only and never reads the dates or any
query time — so at `now = 100` the contains-iff-in-window equivalence
fails. -/
theorem c7_counterexample :
    (Server.getActiveElections demoS1).map (·.ElectionID) = [1] ∧
    demoS1.elections.map (fun e => (e.startDate, e.endDate)) = [(none, some 0)] ∧
    specActiveWindow none (some 0) 100 = false := by
  decide

/-- C7, amended — the claimed window semantics is exactly what the
`backend.js` handler implements: it returns an election iff it is
stored and `startAt ≤ now ≤ endAt` holds with absent bounds unbounded.
The `server.js` implementation ignores dates and time entirely: in any
reachable state every election has status `'Activa'`, so its
`getActiveElections` returns every election regardless of `now` (see
the counterexample). -/
theorem c7_active_window :
    (∀ (db : Backend.BDB) (nowMs : Int) (e : Backend.BElection),
        e ∈ Backend.getActiveElections db nowMs ↔
        e ∈ db.elections ∧ specActiveWindow e.StartDate e.EndDate nowMs = true) ∧
    (∀ (cfg : Server.SConfig) (s : Server.SDB), Server.SReachable cfg s →
        (Server.getActiveElections s).map (·.ElectionID) =
          s.elections.map (·.electionId)) := by
  constructor
  · intro db nowMs e
    unfold Backend.getActiveElections specActiveWindow
    rw [List.mem_filter]
  · intro cfg s hr
    have h7 := (Server.sinv_reachable cfg s hr).2.2.2.2.2.2.1
    unfold Server.getActiveElections
    have : s.elections.filter (fun e => e.status == "Activa") = s.elections :=
      List.filter_eq_self.mpr (fun e he => by simp [h7 e he])
    rw [this, List.map_map]
    rfl

/-- Witness for the amended C7: the backend window filter at a concrete
database and instant, and the server's every-election behaviour at the
concrete §8 state. -/
theorem c7_active_window_witness :
    (⟨1, "E1", "", none, some 0, "t1", 0⟩ ∈
        Backend.getActiveElections
          (Backend.createElection ⟨"E1", "", none, some 0⟩ "t1" Backend.initBDB).2 100 ↔
      ⟨1, "E1", "", none, some 0, "t1", 0⟩ ∈
          (Backend.createElection ⟨"E1", "", none, some 0⟩ "t1" Backend.initBDB).2.elections ∧
        specActiveWindow none (some 0) 100 = true) ∧
    (Server.getActiveElections demoS4).map (·.ElectionID) =
      demoS4.elections.map (·.electionId) := by
  have h := c7_active_window
  exact ⟨h.1 (Backend.createElection ⟨"E1", "", none, some 0⟩ "t1" Backend.initBDB).2 100
      ⟨1, "E1", "", none, some 0, "t1", 0⟩,
    h.2 demoCfg demoS4
      ⟨"t0", [Server.SReq.createElection ⟨"0xAdmin", "E1", "", none, some 0⟩ "t1",
        Server.SReq.addCandidate ⟨1, "Alice", ""⟩ "t2",
        Server.SReq.addCandidate ⟨1, "Bob", ""⟩ "t3",
        Server.SReq.castVote ⟨"", demoWallet, 1, 1, 0, 0⟩ "t4"], rfl⟩⟩

/-- C8 — Idempotent recompute.  The tally recomputation
(`updateCandidateVotes` then `updateElectionTotalVotes`) is idempotent:
with no intervening votes, running it twice equals running it once, on
the entire state.  Its output is a function of the vote ledger and the
key structure alone: the recomputed `(candidateId, votes, percentage)`
rows of the election are determined by the ledger and the election's
candidate-id list, and the recomputed `totalVotes` equals the ledger
count — no previously cached candidate or election value occurs on the
right-hand sides, so a cold rebuild from the ledger yields the same
caches. -/
theorem c8_idempotent_recompute :
    (∀ (eid : Nat) (s : Server.SDB),
        Server.tallyRecompute eid (Server.tallyRecompute eid s) =
          Server.tallyRecompute eid s) ∧
    (∀ (eid : Nat) (s : Server.SDB),
        ((Server.tallyRecompute eid s).candidates.filter
            (fun c => c.electionId == eid)).map
              (fun c => (c.candidateId, c.votes, c.percentage)) =
          ((s.candidates.filter (fun c => c.electionId == eid)).map (·.candidateId)).map
            (fun i => (i, Server.countVotes s.votes eid i,
              Server.pctString (Server.countVotes s.votes eid i)
                (Server.countElectionVotes s.votes eid)))) ∧
    (∀ (eid : Nat) (s : Server.SDB), (s.elections.map (·.electionId)).Nodup →
        ∀ e ∈ (Server.tallyRecompute eid s).elections, e.electionId = eid →
          e.totalVotes = Server.countElectionVotes s.votes eid) :=
  ⟨Server.tallyRecompute_idem, Server.tallyRecompute_candidates_repr,
    Server.tallyRecompute_total⟩

/-- Witness for C8: recomputing the §8 state's election twice equals
once, and the recomputed total of election 1 is the ledger count. -/
theorem c8_idempotent_recompute_witness :
    Server.tallyRecompute 1 (Server.tallyRecompute 1 demoS4) =
      Server.tallyRecompute 1 demoS4 ∧
    (⟨1, "E1", "", none, some 0, "Activa", 1, "t1", ""⟩ : Server.SElection) ∈
      (Server.tallyRecompute 1 demoS4).elections ∧
    (⟨1, "E1", "", none, some 0, "Activa", 1, "t1", ""⟩ : Server.SElection).totalVotes =
      Server.countElectionVotes demoS4.votes 1 := by
  have h := c8_idempotent_recompute
  exact ⟨h.1 1 demoS4, by decide,
    h.2.2 1 demoS4 (by decide) ⟨1, "E1", "", none, some 0, "Activa", 1, "t1", ""⟩
      (by decide) (by decide)⟩

end Voting
